import Mathlib

/-!
Verification of the turn-based games backend (lobbies, per-game rule
engines, move validation, stats aggregation).

This file shallowly embeds the TypeScript source in Lean 4:

* boards are flat lists of nullable string markers (`List (Option String)`,
  `none` = the JS `null` cell);
* JavaScript truthiness of nullable strings (`undefined`, `null` and `""`
  are falsy) is modelled by `jsTruthyStr`;
* fallible operations return `Except` with an error enumeration whose
  constructors correspond one-to-one to the `BadRequestException` messages
  thrown by the source;
* the stats store is a total map from (user id, game type) to an optional
  counters row, and Prisma upserts become pointwise function updates.

Definitions carry the names of the source functions they embed (namespaced
by the class that declares them).
-/


/-- Game-type tags (enum `GameType`: TIC_TAC_TOE, CONNECT4). -/
inductive GameType where
  | ticTacToe
  | connect4
deriving DecidableEq

/-- Session status (enum `GameStatus`: IN_PROGRESS, COMPLETED, ABANDONED). -/
inductive GameStatus where
  | inProgress
  | completed
  | abandoned
deriving DecidableEq

/-- Lobby status (enum `LobbyStatus`: WAITING, IN_GAME, FINISHED). -/
inductive LobbyStatus where
  | waiting
  | inGame
  | finished
deriving DecidableEq

/-- JavaScript truthiness of a nullable string: `null`/`undefined` and the
empty string are falsy, every other string is truthy. -/
def jsTruthyStr : Option String → Bool
  | none => false
  | some s => s != ""

/-- Read a board cell the way a JS string comparison sees it: an in-range
`null` entry and an out-of-range read (`undefined`) both give `none`; a
string entry gives `some` of it. -/
def cellVal (board : List (Option String)) (i : Nat) : Option String :=
  (board.get? i).join

/-- The JS test `board[i] === null`: true exactly for an in-range entry that
is `null` (an out-of-range read is `undefined`, which is not `=== null`). -/
def cellIsNull (board : List (Option String)) (i : Nat) : Bool :=
  board.get? i == some none

/-- A player inside a game document (`GamePlayer` in game-firestore.service):
user id, display info, and the optional game-specific symbol. -/
structure GamePlayer where
  userId : String
  username : String
  displayName : String
  photoURL : Option String
  symbol : Option String
deriving DecidableEq

/-- A game state (`BaseGameState` plus the flat `board` that both shipped
game states carry): board, gameOver, winner, isDraw. -/
structure GameState where
  board : List (Option String)
  gameOver : Bool
  winner : Option String
  isDraw : Bool
deriving DecidableEq

/-- The `BadRequestException` reasons thrown by the engines, the session
controller and the lobby service, one constructor per distinct message. -/
inductive ApiError where
  | invalidPosition
  | positionTaken
  | gameAlreadyOver
  | playerNotInGame
  | playerSymbolNotSet
  | invalidColumn
  | columnFull
  | invalidStateForGame
  | positionRequired
  | columnRequired
  | invalidPlayerCount
  | gameNotInProgress
  | notYourTurn
  | notAPlayerInGame
  | noPlayersInGame
  | onlyOwnerCanStart
  | gameAlreadyStartedOrFinished
  | needMinPlayers
  | cannotStart
  | noReadySystem
  | ownerCannotToggleReady
  | playerNotInLobby
deriving DecidableEq

/-- Result record `{ newState, gameOver, winnerId }` returned by
`validateAndApplyMove` of both engines. -/
structure MoveResult where
  newState : GameState
  gameOver : Bool
  winnerId : Option String
deriving DecidableEq

namespace TicTacToeLogic

/-- The 8 winning combinations of `checkTicTacToeWinner` (3 rows, 3 columns,
2 diagonals), in source order. -/
def lines : List (Nat × Nat × Nat) :=
  [(0, 1, 2), (3, 4, 5), (6, 7, 8),
   (0, 3, 6), (1, 4, 7), (2, 5, 8),
   (0, 4, 8), (2, 4, 6)]

/-- The scan loop of `checkTicTacToeWinner`: for each triple `[a, b, c]`,
`if (board[a] && board[a] === board[b] && board[a] === board[c]) return
board[a]`. -/
def checkWinnerGo (board : List (Option String)) :
    List (Nat × Nat × Nat) → Option String
  | [] => none
  | (a, b, c) :: rest =>
    if jsTruthyStr (cellVal board a) && cellVal board a == cellVal board b
        && cellVal board a == cellVal board c then
      cellVal board a
    else checkWinnerGo board rest

/-- `checkTicTacToeWinner(board)`: scan the 8 lines, return the first
winning marker or `null`. -/
def checkTicTacToeWinner (board : List (Option String)) : Option String :=
  checkWinnerGo board lines

end TicTacToeLogic

/-- Spec-side predicate for claim C1: triple `t` of cells all hold the
marker `s` (three identical non-null cells equal to `s`). -/
def tripleFilled (board : List (Option String)) (s : String)
    (t : Nat × Nat × Nat) : Prop :=
  cellVal board t.1 = some s ∧ cellVal board t.2.1 = some s ∧
    cellVal board t.2.2 = some s

/-- Spec-side predicate for claim C1: one of the 8 canonical triples holds
three identical non-null cells equal to `s`. -/
def lineFilledWith (board : List (Option String)) (s : String) : Prop :=
  ∃ t ∈ TicTacToeLogic.lines, tripleFilled board s t

instance (board : List (Option String)) (s : String) (t : Nat × Nat × Nat) :
    Decidable (tripleFilled board s t) := by
  unfold tripleFilled; infer_instance

instance (board : List (Option String)) (s : String) :
    Decidable (lineFilledWith board s) := by
  unfold lineFilledWith; infer_instance

/-- A board whose top row is three X and middle row three O: both markers
complete a canonical line, but the scan reports only the first. -/
def c1BoardXO : List (Option String) :=
  [some "X", some "X", some "X", some "O", some "O", some "O",
   none, none, none]

/-- A board whose top row holds three empty-string markers: non-null and
identical, yet JS truthiness makes the scan skip them. -/
def c1BoardEmptyStr : List (Option String) :=
  [some "", some "", some "", none, none, none, none, none, none]

/-- JS `Array.prototype.findIndex`: index of the first element satisfying
the predicate, `-1` when none does. -/
def findIndexInt {α : Type} (p : α → Bool) : List α → Int
  | [] => -1
  | x :: xs =>
    if p x then 0
    else
      let r := findIndexInt p xs
      if r = -1 then -1 else r + 1

/-- `getNextPlayerId(currentPlayerId, players)`, identical in both engines:
`findIndex` of the current player, advance by one modulo the roster length,
return that entry's user id.  The JS crash on an empty roster (`NaN` index)
is modelled by `none`; on a non-empty roster the result is always `some`. -/
def getNextPlayerIdImpl (currentPlayerId : String)
    (players : List GamePlayer) : Option String :=
  let currentPlayerIndex :=
    findIndexInt (fun p => p.userId == currentPlayerId) players
  let nextPlayerIndex := (currentPlayerIndex + 1) % (players.length : Int)
  (players.get? nextPlayerIndex.toNat).map (fun p => p.userId)

/-- Move payload `{ position?: number; column?: number }` as received by
`validateAndApplyMove`. -/
structure MovePayload where
  position : Option Int
  column : Option Int
deriving DecidableEq

/-- Display info of a lobby player as passed to `createGamePlayers`. -/
structure LobbyPlayerInfo where
  userId : String
  username : String
  displayName : String
  photoURL : Option String
deriving DecidableEq

namespace TicTacToeLogic

/-- `TicTacToeLogic.createInitialState(players)`: exactly 2 players, else
BadRequest; returns the empty 9-cell board with cleared flags. -/
def createInitialState (players : List GamePlayer) :
    Except ApiError GameState :=
  if players.length != 2 then .error .invalidPlayerCount
  else .ok { board := List.replicate 9 none, gameOver := false,
             winner := none, isDraw := false }

/-- `TicTacToeLogic.createGamePlayers(lobbyPlayers)`: exactly 2 entries,
else BadRequest; first joiner gets symbol X, second gets O. -/
def createGamePlayers (lobbyPlayers : List LobbyPlayerInfo) :
    Except ApiError (List GamePlayer) :=
  if lobbyPlayers.length != 2 then .error .invalidPlayerCount
  else .ok (lobbyPlayers.enum.map (fun ip =>
    { userId := ip.2.userId, username := ip.2.username,
      displayName := ip.2.displayName, photoURL := ip.2.photoURL,
      symbol := some (if ip.1 = 0 then "X" else "O") }))

/-- `TicTacToeLogic.getNextPlayerId`: round-robin over the roster. -/
def getNextPlayerId (currentPlayerId : String) (players : List GamePlayer) :
    Option String :=
  getNextPlayerIdImpl currentPlayerId players

/-- `validateAndApplyTicTacToeMove(currentState, position, playerId,
players)`: validate range, vacancy (`board[position] !== null`), game not
over, player membership and symbol (JS-falsy symbol rejected), then place
the symbol, rescan for a winner, and rebuild the state and winner id
exactly as the source does (including the `|| null` on an empty user id). -/
def validateAndApplyTicTacToeMove (currentState : GameState) (position : Int)
    (playerId : String) (players : List GamePlayer) :
    Except ApiError MoveResult :=
  if position < 0 || 8 < position then .error .invalidPosition
  else if !(cellIsNull currentState.board position.toNat) then
    .error .positionTaken
  else if currentState.gameOver then .error .gameAlreadyOver
  else
    match players.find? (fun p => p.userId == playerId) with
    | none => .error .playerNotInGame
    | some player =>
      match player.symbol with
      | none => .error .playerSymbolNotSet
      | some symbol =>
        if symbol == "" then .error .playerSymbolNotSet
        else
          let newBoard := currentState.board.set position.toNat (some symbol)
          let winnerSymbol := checkTicTacToeWinner newBoard
          let isDraw := !(jsTruthyStr winnerSymbol)
            && newBoard.all (fun cell => cell != none)
          let newState : GameState :=
            { board := newBoard
              gameOver := (winnerSymbol != none) || isDraw
              winner := winnerSymbol
              isDraw := isDraw }
          let winnerId :=
            if jsTruthyStr winnerSymbol then
              match players.find? (fun p => p.symbol == winnerSymbol) with
              | some p => if p.userId == "" then none else some p.userId
              | none => none
            else none
          .ok { newState := newState, gameOver := newState.gameOver,
                winnerId := winnerId }

/-- `TicTacToeLogic.validateAndApplyMove`: narrow the dynamic state with
`isTicTacToeState` (a 9-cell board), require a numeric `position`, then
delegate. -/
def validateAndApplyMove (currentState : GameState) (move : MovePayload)
    (playerId : String) (players : List GamePlayer) :
    Except ApiError MoveResult :=
  if currentState.board.length != 9 then .error .invalidStateForGame
  else
    match move.position with
    | none => .error .positionRequired
    | some position =>
      validateAndApplyTicTacToeMove currentState position playerId players

end TicTacToeLogic

namespace Connect4Logic

/-- `Connect4Logic.createInitialState(players)`: exactly 2 players, else
BadRequest; returns the empty 42-cell board with cleared flags. -/
def createInitialState (players : List GamePlayer) :
    Except ApiError GameState :=
  if players.length != 2 then .error .invalidPlayerCount
  else .ok { board := List.replicate 42 none, gameOver := false,
             winner := none, isDraw := false }

/-- `Connect4Logic.createGamePlayers(lobbyPlayers)`: exactly 2 entries, else
BadRequest; X to the first joiner, O to the second. -/
def createGamePlayers (lobbyPlayers : List LobbyPlayerInfo) :
    Except ApiError (List GamePlayer) :=
  if lobbyPlayers.length != 2 then .error .invalidPlayerCount
  else .ok (lobbyPlayers.enum.map (fun ip =>
    { userId := ip.2.userId, username := ip.2.username,
      displayName := ip.2.displayName, photoURL := ip.2.photoURL,
      symbol := some (if ip.1 = 0 then "X" else "O") }))

/-- `Connect4Logic.getNextPlayerId`: round-robin over the roster. -/
def getNextPlayerId (currentPlayerId : String) (players : List GamePlayer) :
    Option String :=
  getNextPlayerIdImpl currentPlayerId players

/-- The descending row scan of `getDropRow`: try rows 5, 4, ..., 0 and
return the first whose slot in the column is `=== null`. -/
def getDropRowGo (board : List (Option String)) (column : Nat) :
    List Nat → Option Nat
  | [] => none
  | r :: rs =>
    if cellIsNull board (r * 7 + column) then some r
    else getDropRowGo board column rs

/-- `getDropRow(board, column)`: lowest unoccupied row of the column
scanning from the bottom row upward; the source's `-1` sentinel for a full
column is modelled by `none`. -/
def getDropRow (board : List (Option String)) (column : Nat) : Option Nat :=
  getDropRowGo board column [5, 4, 3, 2, 1, 0]

/-- `checkPattern(board, pattern, symbol)`: every index of the pattern holds
exactly `symbol`. -/
def checkPattern (board : List (Option String)) (pattern : List Nat)
    (symbol : String) : Bool :=
  pattern.all (fun idx => cellVal board idx == some symbol)

/-- The (row, col) traversal order of `checkConnect4Winner`: all 42 cells,
row-major. -/
def scanCells : List (Nat × Nat) :=
  (List.range 6).flatMap (fun row => (List.range 7).map (fun col => (row, col)))

/-- The cell loop of `checkConnect4Winner`: skip `null` cells, then test the
right, down, down-right and down-left 4-in-a-row patterns bounded by the
board edges, returning the first matching symbol.  (On the 42-cell boards
enforced by `isConnect4State` every pattern index is in range, so reading
out-of-range cells as `none` agrees with the JS source.) -/
def checkWinnerGo (board : List (Option String)) :
    List (Nat × Nat) → Option String
  | [] => none
  | (row, col) :: rest =>
    let index := row * 7 + col
    match cellVal board index with
    | none => checkWinnerGo board rest
    | some symbol =>
      if decide (col ≤ 3)
          && checkPattern board [index, index + 1, index + 2, index + 3]
            symbol then some symbol
      else if decide (row ≤ 2)
          && checkPattern board [index, index + 7, index + 14, index + 21]
            symbol then some symbol
      else if decide (col ≤ 3) && decide (row ≤ 2)
          && checkPattern board [index, index + 8, index + 16, index + 24]
            symbol then some symbol
      else if decide (3 ≤ col) && decide (row ≤ 2)
          && checkPattern board [index, index + 6, index + 12, index + 18]
            symbol then some symbol
      else checkWinnerGo board rest

/-- `checkConnect4Winner(board)`: row-major scan of all 4-in-a-row
patterns. -/
def checkConnect4Winner (board : List (Option String)) : Option String :=
  checkWinnerGo board scanCells

/-- `validateAndApplyConnect4Move(currentState, column, playerId, players)`:
validate the column range, compute the drop row (error `columnFull` when the
column scan finds no `null` slot), check the game is not over, resolve the
mover and their symbol (JS-falsy symbol rejected), then drop the piece at
`row * 7 + column`, rescan, and rebuild state and winner id exactly as the
source does. -/
def validateAndApplyConnect4Move (currentState : GameState) (column : Int)
    (playerId : String) (players : List GamePlayer) :
    Except ApiError MoveResult :=
  if column < 0 || 7 ≤ column then .error .invalidColumn
  else
    match getDropRow currentState.board column.toNat with
    | none => .error .columnFull
    | some row =>
      if currentState.gameOver then .error .gameAlreadyOver
      else
        match players.find? (fun p => p.userId == playerId) with
        | none => .error .playerNotInGame
        | some player =>
          match player.symbol with
          | none => .error .playerSymbolNotSet
          | some symbol =>
            if symbol == "" then .error .playerSymbolNotSet
            else
              let index := row * 7 + column.toNat
              let newBoard := currentState.board.set index (some symbol)
              let winnerSymbol := checkConnect4Winner newBoard
              let isDraw := !(jsTruthyStr winnerSymbol)
                && newBoard.all (fun cell => cell != none)
              let newState : GameState :=
                { board := newBoard
                  gameOver := (winnerSymbol != none) || isDraw
                  winner := winnerSymbol
                  isDraw := isDraw }
              let winnerId :=
                if jsTruthyStr winnerSymbol then
                  match players.find? (fun p => p.symbol == winnerSymbol) with
                  | some p => if p.userId == "" then none else some p.userId
                  | none => none
                else none
              .ok { newState := newState, gameOver := newState.gameOver,
                    winnerId := winnerId }

/-- `Connect4Logic.validateAndApplyMove`: narrow the dynamic state with
`isConnect4State` (a 42-cell board), pick `column` when present else
`position` (backward compatibility), require it numeric, then delegate. -/
def validateAndApplyMove (currentState : GameState) (move : MovePayload)
    (playerId : String) (players : List GamePlayer) :
    Except ApiError MoveResult :=
  if currentState.board.length != 42 then .error .invalidStateForGame
  else
    let column :=
      match move.column with
      | some c => some c
      | none => move.position
    match column with
    | none => .error .columnRequired
    | some c => validateAndApplyConnect4Move currentState c playerId players

end Connect4Logic

/-- First player of the Connect-Four scenario (symbol X). -/
def c2PlayerX : GamePlayer :=
  { userId := "p1", username := "px", displayName := "Player X",
    photoURL := none, symbol := some "X" }

/-- Second player of the Connect-Four scenario (symbol O). -/
def c2PlayerO : GamePlayer :=
  { userId := "p2", username := "po", displayName := "Player O",
    photoURL := none, symbol := some "O" }

/-- Two-player roster of the Connect-Four scenario. -/
def c2Players : List GamePlayer := [c2PlayerX, c2PlayerO]

/-- The initial 42-cell Connect-Four state. -/
def c2Initial : GameState :=
  { board := List.replicate 42 none, gameOver := false,
    winner := none, isDraw := false }

/-- Run a list of (player, column) moves through the Connect-Four engine,
threading the state and propagating the first error. -/
def applyC4Moves (players : List GamePlayer) (st : GameState)
    (moves : List (String × Int)) : Except ApiError GameState :=
  moves.foldlM (fun s m =>
    (Connect4Logic.validateAndApplyConnect4Move s m.2 m.1 players).map
      (fun r => r.newState)) st

/-- Seven successive drops into column 3 by alternating players. -/
def c2SevenMoves : List (String × Int) :=
  [("p1", 3), ("p2", 3), ("p1", 3), ("p2", 3), ("p1", 3), ("p2", 3),
   ("p1", 3)]

/-- A state whose column 3 is entirely occupied (all six row slots). -/
def c2FullColState : GameState :=
  { board := (List.range 42).map (fun i => if i % 7 = 3 then some "Z"
      else none),
    gameOver := false, winner := none, isDraw := false }

/-- A game (session) document (`Game` in game-firestore.service): lobby
reference, game type, status, current-turn pointer, roster, engine state,
and recorded winner. -/
structure Game where
  lobbyId : String
  gameType : GameType
  status : GameStatus
  currentPlayerId : String
  players : List GamePlayer
  state : GameState
  winnerId : Option String
deriving DecidableEq

namespace GameLogicService

/-- Registry dispatch of `validateAndApplyMove` by game type. -/
def validateAndApplyMove (gameType : GameType) (currentState : GameState)
    (move : MovePayload) (playerId : String) (players : List GamePlayer) :
    Except ApiError MoveResult :=
  match gameType with
  | .ticTacToe =>
    TicTacToeLogic.validateAndApplyMove currentState move playerId players
  | .connect4 =>
    Connect4Logic.validateAndApplyMove currentState move playerId players

/-- Registry dispatch of `getNextPlayerId` by game type. -/
def getNextPlayerId (gameType : GameType) (currentPlayerId : String)
    (players : List GamePlayer) : Option String :=
  match gameType with
  | .ticTacToe => TicTacToeLogic.getNextPlayerId currentPlayerId players
  | .connect4 => Connect4Logic.getNextPlayerId currentPlayerId players

/-- Registry dispatch of `createGamePlayers` by game type. -/
def createGamePlayers (gameType : GameType)
    (lobbyPlayers : List LobbyPlayerInfo) :
    Except ApiError (List GamePlayer) :=
  match gameType with
  | .ticTacToe => TicTacToeLogic.createGamePlayers lobbyPlayers
  | .connect4 => Connect4Logic.createGamePlayers lobbyPlayers

/-- Registry dispatch of `createInitialState` by game type. -/
def createInitialState (gameType : GameType) (players : List GamePlayer) :
    Except ApiError GameState :=
  match gameType with
  | .ticTacToe => TicTacToeLogic.createInitialState players
  | .connect4 => Connect4Logic.createInitialState players

end GameLogicService

/-- The controller's move-number computation: the count of non-null cells
of a board (`state.board.filter(cell => cell !== null).length`). -/
def countNonNull (board : List (Option String)) : Nat :=
  (board.filter (fun cell => cell != none)).length

/-- A recorded move document (`addMove` payload): acting player, raw
position, sequence number. -/
structure MoveRecord where
  playerId : String
  position : Int
  moveNumber : Nat
deriving DecidableEq

namespace GameController

/-- `makeMove` of the games controller: reject unless the session is
in-progress, it is the caller's turn, and the caller is on the roster;
delegate to the engine with payload `{ position }`; advance the turn with
the registry's `getNextPlayerId`; record a move numbered `count of
non-null pre-move cells + 1`; and, when the engine reports game over,
transition the session to Completed recording the engine's winner id
(`endGame`).  The sequential Firestore writes are modelled as the returned
updated document; the unreachable `none` of `getNextPlayerId` (the roster
is non-empty once membership passed) is mapped to an error. -/
def makeMove (game : Game) (position : Int) (userId : String) :
    Except ApiError (Game × MoveRecord) :=
  if game.status ≠ .inProgress then .error .gameNotInProgress
  else if game.currentPlayerId ≠ userId then .error .notYourTurn
  else if !(game.players.any (fun p => p.userId == userId)) then
    .error .notAPlayerInGame
  else
    match GameLogicService.validateAndApplyMove game.gameType game.state
      { position := some position, column := none } userId game.players with
    | .error e => .error e
    | .ok result =>
      match GameLogicService.getNextPlayerId game.gameType userId
        game.players with
      | none => .error .playerNotInGame
      | some nextPlayerId =>
        let moveNumber := countNonNull game.state.board + 1
        let game2 : Game :=
          { game with
            state := result.newState,
            currentPlayerId := nextPlayerId,
            status := if result.gameOver then .completed else game.status,
            winnerId :=
              if result.gameOver then result.winnerId else game.winnerId }
        .ok (game2,
          { playerId := userId, position := position,
            moveNumber := moveNumber })

end GameController

/-- One move request of a serialized run: acting player and raw position. -/
structure MoveReq where
  playerId : String
  position : Int
deriving DecidableEq

/-- A serialized run of engine-accepted moves: apply each move with the
given step function, recording for each accepted move the sequence number
the controller assigns (count of non-null cells of the pre-move state plus
one); the run aborts at the first rejected move. -/
def runMoves (step : GameState → MoveReq → Option GameState) :
    GameState → List MoveReq → Option (GameState × List Nat)
  | st, [] => some (st, [])
  | st, m :: ms =>
    match step st m with
    | none => none
    | some st2 =>
      match runMoves step st2 ms with
      | none => none
      | some (stf, ns) => some (stf, (countNonNull st.board + 1) :: ns)

/-- The Tic-Tac-Toe engine as a run step. -/
def tttStep (players : List GamePlayer) (st : GameState) (m : MoveReq) :
    Option GameState :=
  (TicTacToeLogic.validateAndApplyTicTacToeMove st m.position m.playerId
    players).toOption.map (fun r => r.newState)

/-- The Connect-Four engine as a run step. -/
def c4Step (players : List GamePlayer) (st : GameState) (m : MoveReq) :
    Option GameState :=
  (Connect4Logic.validateAndApplyConnect4Move st m.position m.playerId
    players).toOption.map (fun r => r.newState)

/-- Invariant of every engine-produced board: no cell holds the empty
string (cells are `null` or a JS-truthy marker).  It holds for the empty
initial boards and is preserved by accepted moves, whose placed symbol is
rejected when JS-falsy. -/
def boardTruthy (board : List (Option String)) : Prop :=
  ∀ cell ∈ board, cell ≠ some ""

instance (board : List (Option String)) : Decidable (boardTruthy board) := by
  unfold boardTruthy; infer_instance

/-- Initial state of the Tic-Tac-Toe sequence-number scenario. -/
def c8TttInit : GameState :=
  { board := List.replicate 9 none, gameOver := false,
    winner := none, isDraw := false }

/-- Two accepted Tic-Tac-Toe moves for the sequence-number scenario. -/
def c8Moves : List MoveReq :=
  [{ playerId := "p1", position := 0 }, { playerId := "p2", position := 4 }]

/-- A near-terminal Tic-Tac-Toe state: X completes the top row by playing
position 2. -/
def c3NearWin : GameState :=
  { board := [some "X", some "X", none, some "O", some "O", none,
      none, none, none],
    gameOver := false, winner := none, isDraw := false }

/-- Iterate `getNextPlayerId` k times from a starting user id, propagating
the (never-hit on a non-empty roster) empty-roster failure. -/
def iterateNext (players : List GamePlayer) : Nat → String → Option String
  | 0, uid => some uid
  | k + 1, uid =>
    match getNextPlayerIdImpl uid players with
    | none => none
    | some nxt => iterateNext players k nxt

/-- Three distinct players for the round-robin witness. -/
def c7Players : List GamePlayer :=
  [{ userId := "a", username := "ua", displayName := "A", photoURL := none,
     symbol := some "X" },
   { userId := "b", username := "ub", displayName := "B", photoURL := none,
     symbol := some "O" },
   { userId := "c", username := "uc", displayName := "C", photoURL := none,
     symbol := none }]

/-- One stats counters row (the counter fields of `GameStatsData` /
the `gameStats` Prisma row). -/
structure GameStats where
  wins : Nat
  losses : Nat
  draws : Nat
  played : Nat
deriving DecidableEq

/-- The relational stats store: a total map from (user id, game type) to an
optional counters row; `none` means no row exists yet for that key. -/
def StatsDB : Type := String → GameType → Option GameStats

/-- A roster entry as passed to the stats updates
(`Array<{ userId: string }>`). -/
structure PlayerRef where
  userId : String
deriving DecidableEq

/-- Read a row with an absent row seen as all-zero counters, so that
"incremented by one" is meaningful for both the create and update arms of
an upsert. -/
def rowOf (db : StatsDB) (userId : String) (gameType : GameType) :
    GameStats :=
  (db userId gameType).getD
    { wins := 0, losses := 0, draws := 0, played := 0 }

/-- The all-rows-absent stats store. -/
def emptyStatsDB : StatsDB := fun _ _ => none

namespace StatsRepository

/-- Prisma `upsert` on the (userId, gameType) key: create the row if
absent, otherwise apply the update in place; other rows untouched. -/
def upsert (db : StatsDB) (userId : String) (gameType : GameType)
    (create : GameStats) (update : GameStats → GameStats) : StatsDB :=
  fun u g =>
    if u = userId ∧ g = gameType then
      some (match db userId gameType with
        | none => create
        | some row => update row)
    else db u g

/-- `incrementWin`: upsert with create {wins 1, played 1} or update
{wins+1, played+1}. -/
def incrementWin (db : StatsDB) (userId : String) (gameType : GameType) :
    StatsDB :=
  upsert db userId gameType
    { wins := 1, losses := 0, draws := 0, played := 1 }
    (fun row => { row with wins := row.wins + 1, played := row.played + 1 })

/-- `incrementLoss`: upsert with create {losses 1, played 1} or update
{losses+1, played+1}. -/
def incrementLoss (db : StatsDB) (userId : String) (gameType : GameType) :
    StatsDB :=
  upsert db userId gameType
    { wins := 0, losses := 1, draws := 0, played := 1 }
    (fun row =>
      { row with losses := row.losses + 1, played := row.played + 1 })

/-- `incrementDraw`: upsert with create {draws 1, played 1} or update
{draws+1, played+1}. -/
def incrementDraw (db : StatsDB) (userId : String) (gameType : GameType) :
    StatsDB :=
  upsert db userId gameType
    { wins := 0, losses := 0, draws := 1, played := 1 }
    (fun row =>
      { row with draws := row.draws + 1, played := row.played + 1 })

/-- `incrementPlayed`: upsert with create {played 1} or update
{played+1}. -/
def incrementPlayed (db : StatsDB) (userId : String) (gameType : GameType) :
    StatsDB :=
  upsert db userId gameType
    { wins := 0, losses := 0, draws := 0, played := 1 }
    (fun row => { row with played := row.played + 1 })

/-- `updateStatsForGameCompletion(players, winnerId, gameType)`: with a
JS-truthy winner id, increment the winner's win (and played), then a loss
(and played) for every roster member other than the winner, in roster
order; with a falsy winner id (`null` — or the empty string, equally falsy
in `if (winnerId)`), increment a draw (and played) for every member. -/
def updateStatsForGameCompletion (players : List PlayerRef)
    (winnerId : Option String) (gameType : GameType) (db : StatsDB) :
    StatsDB :=
  match winnerId with
  | some w =>
    if w ≠ "" then
      players.foldl
        (fun acc player =>
          if player.userId ≠ w then incrementLoss acc player.userId gameType
          else acc)
        (incrementWin db w gameType)
    else
      players.foldl
        (fun acc player => incrementDraw acc player.userId gameType) db
  | none =>
    players.foldl
      (fun acc player => incrementDraw acc player.userId gameType) db

/-- `updateStatsForGameAbandonment(players, gameType)`: increment only
played for every roster member. -/
def updateStatsForGameAbandonment (players : List PlayerRef)
    (gameType : GameType) (db : StatsDB) : StatsDB :=
  players.foldl
    (fun acc player => incrementPlayed acc player.userId gameType) db

end StatsRepository

/-- The per-row effect of a loss increment: losses and played plus one. -/
def bumpLoss (r : GameStats) : GameStats :=
  { wins := r.wins, losses := r.losses + 1, draws := r.draws,
    played := r.played + 1 }

/-- The per-row effect of a draw increment: draws and played plus one. -/
def bumpDraw (r : GameStats) : GameStats :=
  { wins := r.wins, losses := r.losses, draws := r.draws + 1,
    played := r.played + 1 }

/-- The per-row effect of a played increment: played plus one. -/
def bumpPlayed (r : GameStats) : GameStats :=
  { wins := r.wins, losses := r.losses, draws := r.draws,
    played := r.played + 1 }

/-- Two-member roster for the stats witnesses. -/
def c4Roster : List PlayerRef := [{ userId := "u1" }, { userId := "u2" }]

/-- A player entry inside a lobby document (`LobbyPlayer`): user id,
display info, ready flag.  (The join timestamp is metadata the claims never
touch; list order is join order.) -/
structure LobbyPlayer where
  userId : String
  username : String
  displayName : String
  photoURL : Option String
  isReady : Bool
deriving DecidableEq

/-- A lobby document (`Lobby`). -/
structure Lobby where
  id : String
  name : String
  ownerId : String
  gameType : GameType
  status : LobbyStatus
  maxPlayers : Nat
  players : List LobbyPlayer
deriving DecidableEq

/-- The player shape handed to a config's `canStart` predicate. -/
structure CanStartPlayer where
  userId : String
  isReady : Bool
deriving DecidableEq

/-- The lobby shape handed to a config's `canStart` predicate. -/
structure CanStartLobby where
  players : List CanStartPlayer
  ownerId : String

/-- Per-game-type lobby configuration (`GameLobbyConfig`). -/
structure GameLobbyConfig where
  minPlayers : Nat
  maxPlayers : Nat
  ownerMustBeReady : Bool
  ownerCanToggleReady : Bool
  usesReadySystem : Bool
  canStart : Option (CanStartLobby → Bool)

/-- The shared `canStart` body of both shipped configurations: at least two
players, and every non-owner player ready. -/
def shippedCanStart (lobby : CanStartLobby) : Bool :=
  if lobby.players.length < 2 then false
  else
    (lobby.players.filter (fun p => p.userId != lobby.ownerId)).all
      (fun p => p.isReady)

/-- `GAME_LOBBY_CONFIGS`: both shipped game types use min/max 2 players, an
auto-ready owner who cannot toggle, a ready system, and the custom
`canStart` above. -/
def GAME_LOBBY_CONFIGS : GameType → GameLobbyConfig
  | .ticTacToe =>
    { minPlayers := 2, maxPlayers := 2, ownerMustBeReady := false,
      ownerCanToggleReady := false, usesReadySystem := true,
      canStart := some shippedCanStart }
  | .connect4 =>
    { minPlayers := 2, maxPlayers := 2, ownerMustBeReady := false,
      ownerCanToggleReady := false, usesReadySystem := true,
      canStart := some shippedCanStart }

/-- `getGameLobbyConfig`: registry lookup (total over the enum, so the
missing-config error path cannot arise). -/
def getGameLobbyConfig (gameType : GameType) : GameLobbyConfig :=
  GAME_LOBBY_CONFIGS gameType

namespace LobbyFirestoreService

/-- `togglePlayerReady` (the in-transaction body): require a ready system,
forbid the owner when the config says so, locate the caller with
`findIndex` (`-1` = not in lobby), and flip that entry's ready flag.  The
out-of-range lookup after a non-negative index is unreachable and mapped to
the same not-in-lobby error. -/
def togglePlayerReady (lobby : Lobby) (userId : String) :
    Except ApiError Lobby :=
  let gameConfig := getGameLobbyConfig lobby.gameType
  if !gameConfig.usesReadySystem then .error .noReadySystem
  else if lobby.ownerId = userId ∧ !gameConfig.ownerCanToggleReady then
    .error .ownerCannotToggleReady
  else
    let playerIndex :=
      findIndexInt (fun p => p.userId == userId) lobby.players
    if playerIndex = -1 then .error .playerNotInLobby
    else
      match lobby.players.get? playerIndex.toNat with
      | none => .error .playerNotInLobby
      | some player =>
        .ok { lobby with
          players := lobby.players.set playerIndex.toNat
            { player with isReady := !player.isReady } }

end LobbyFirestoreService

namespace GameFirestoreService

/-- `createGame`: reject an empty roster; the starting player defaults to
the first roster entry (the controller passes no override); the new session
starts InProgress with no winner. -/
def createGame (lobbyId : String) (gameType : GameType)
    (players : List GamePlayer) (initialState : GameState) :
    Except ApiError Game :=
  match players with
  | [] => .error .noPlayersInGame
  | p0 :: _ =>
    .ok { lobbyId := lobbyId, gameType := gameType, status := .inProgress,
          currentPlayerId := p0.userId, players := players,
          state := initialState, winnerId := none }

end GameFirestoreService

namespace GameController

/-- `startGame` of the games controller: only the owner may start, the
lobby must be Waiting, the roster must meet the config's minimum, and the
config's `canStart` predicate (or the default all-ready rule) must hold;
then game players and the initial state are built and the session document
created.  The Firestore lobby-status update is outside the returned
value. -/
def startGame (lobby : Lobby) (userId : String) : Except ApiError Game :=
  if lobby.ownerId ≠ userId then .error .onlyOwnerCanStart
  else if lobby.status ≠ .waiting then .error .gameAlreadyStartedOrFinished
  else
    let gameConfig := getGameLobbyConfig lobby.gameType
    if lobby.players.length < gameConfig.minPlayers then
      .error .needMinPlayers
    else
      let canStart :=
        match gameConfig.canStart with
        | some f =>
          f { players := lobby.players.map
                (fun p => { userId := p.userId, isReady := p.isReady }),
              ownerId := lobby.ownerId }
        | none => decide (gameConfig.minPlayers ≤ lobby.players.length)
            && lobby.players.all (fun p => p.isReady)
      if !canStart then .error .cannotStart
      else
        match GameLogicService.createGamePlayers lobby.gameType
          (lobby.players.map (fun p =>
            { userId := p.userId, username := p.username,
              displayName := p.displayName, photoURL := p.photoURL })) with
        | .error e => .error e
        | .ok gamePlayers =>
          match GameLogicService.createInitialState lobby.gameType
            gamePlayers with
          | .error e => .error e
          | .ok initialState =>
            GameFirestoreService.createGame lobby.id lobby.gameType
              gamePlayers initialState

end GameController

/-- Owner (auto-ready) of the start scenario. -/
def c6Owner : LobbyPlayer :=
  { userId := "alice", username := "ua", displayName := "Alice",
    photoURL := none, isReady := true }

/-- The not-yet-ready second player of the start scenario. -/
def c6Bob : LobbyPlayer :=
  { userId := "bob", username := "ub", displayName := "Bob",
    photoURL := none, isReady := false }

/-- A ready third player for the counterexample lobby. -/
def c6Carol : LobbyPlayer :=
  { userId := "carol", username := "uc", displayName := "Carol",
    photoURL := none, isReady := true }

/-- The 2-player Waiting lobby of the scenario (owner auto-ready, other
player not ready). -/
def c6Lobby : Lobby :=
  { id := "L1", name := "room", ownerId := "alice",
    gameType := .ticTacToe, status := .waiting, maxPlayers := 2,
    players := [c6Owner, c6Bob] }

/-- A 3-player Waiting Tic-Tac-Toe lobby with everyone ready (maxPlayers 3
is allowed by the create-lobby DTO, which caps at 8 for every game
type). -/
def c6Lobby3 : Lobby :=
  { id := "L3", name := "room3", ownerId := "alice",
    gameType := .ticTacToe, status := .waiting, maxPlayers := 3,
    players := [c6Owner,
      { userId := "bob", username := "ub", displayName := "Bob",
        photoURL := none, isReady := true }, c6Carol] }

/-- The scenario lobby after the second player toggled ready. -/
def c6LobbyReady : Lobby :=
  { id := "L1", name := "room", ownerId := "alice",
    gameType := .ticTacToe, status := .waiting, maxPlayers := 2,
    players := [c6Owner,
      { userId := "bob", username := "ub", displayName := "Bob",
        photoURL := none, isReady := true }] }

/-- Soundness of the scan loop: a returned winner is a non-empty marker and
some scanned triple holds it in all three cells. -/
theorem checkWinnerGo_sound (board : List (Option String))
    (L : List (Nat × Nat × Nat)) (s : String)
    (h : TicTacToeLogic.checkWinnerGo board L = some s) :
    s ≠ "" ∧ ∃ t ∈ L, tripleFilled board s t := by
  induction L with
  | nil => simp [TicTacToeLogic.checkWinnerGo] at h
  | cons hd tl ih =>
    obtain ⟨a, b, c⟩ := hd
    rw [TicTacToeLogic.checkWinnerGo] at h
    split at h
    · rename_i hcond
      simp only [Bool.and_eq_true, beq_iff_eq] at hcond
      obtain ⟨⟨htr, hab⟩, hac⟩ := hcond
      rw [h] at htr hab hac
      simp only [jsTruthyStr, bne_iff_ne, ne_eq] at htr
      refine ⟨htr, ⟨(a, b, c), List.mem_cons_self _ _, h, hab.symm, hac.symm⟩⟩
    · obtain ⟨hs, t, ht, hp⟩ := ih h
      exact ⟨hs, t, List.mem_cons_of_mem _ ht, hp⟩

/-- Completeness of the scan loop: if some scanned triple holds a non-empty
marker in all three cells, the scan returns a winner. -/
theorem checkWinnerGo_complete (board : List (Option String))
    (L : List (Nat × Nat × Nat)) (s : String) (hs : s ≠ "")
    (h : ∃ t ∈ L, tripleFilled board s t) :
    ∃ w, TicTacToeLogic.checkWinnerGo board L = some w := by
  induction L with
  | nil => simp at h
  | cons hd tl ih =>
    obtain ⟨t, ht, hp⟩ := h
    obtain ⟨a, b, c⟩ := hd
    rcases List.mem_cons.mp ht with heq | htl
    · obtain ⟨ha, hb, hc⟩ := hp
      subst heq
      refine ⟨s, ?_⟩
      rw [TicTacToeLogic.checkWinnerGo]
      simp only at ha hb hc
      simp [ha, hb, hc, jsTruthyStr, hs]
    · rw [TicTacToeLogic.checkWinnerGo]
      split
      · rename_i hcond
        simp only [Bool.and_eq_true] at hcond
        obtain ⟨⟨htr, _⟩, _⟩ := hcond
        cases hv : cellVal board a with
        | none => rw [hv] at htr; simp [jsTruthyStr] at htr
        | some v => exact ⟨v, rfl⟩
      · exact ih ⟨t, htl, hp⟩

/-- C1: the claim as stated is false. The iff "the scan detects a winner
with symbol s iff one of the 8 triples holds three identical non-null cells
equal to s" fails in both directions on concrete boards: on `c1BoardXO`
the O-triple (3,4,5) is filled yet the scan reports X, not O; and on
`c1BoardEmptyStr` the triple (0,1,2) holds identical non-null empty-string
markers yet the scan (which tests JS truthiness, not only non-nullness)
reports no winner. -/
theorem c1_counterexample :
    (TicTacToeLogic.checkTicTacToeWinner c1BoardXO = some "X"
      ∧ lineFilledWith c1BoardXO "O"
      ∧ TicTacToeLogic.checkTicTacToeWinner c1BoardXO ≠ some "O")
    ∧ (lineFilledWith c1BoardEmptyStr ""
      ∧ TicTacToeLogic.checkTicTacToeWinner c1BoardEmptyStr = none) := by
  refine ⟨⟨by decide, by decide, by decide⟩, by decide, by decide⟩

/-- C1 (amended): the win scan is sound — a detected winner `s` is a
non-empty marker and its three winning cells lie on one of the 8 canonical
lines, all equal to `s` (hence identical and non-null) — and detection is
complete in the existential sense: the scan reports some winner iff one of
the 8 canonical triples holds three identical non-empty (JS-truthy) cells.
(The per-symbol "if and only if" of the original claim fails when two
different symbols each fill a line, and "non-null" must be strengthened to
"non-empty" because the scan tests JS truthiness.) -/
theorem c1_win_scan :
    (∀ board s, TicTacToeLogic.checkTicTacToeWinner board = some s →
      s ≠ "" ∧ lineFilledWith board s)
    ∧ (∀ board, (∃ s, TicTacToeLogic.checkTicTacToeWinner board = some s) ↔
      (∃ s, s ≠ "" ∧ lineFilledWith board s)) := by
  constructor
  · intro board s h
    exact checkWinnerGo_sound board TicTacToeLogic.lines s h
  · intro board
    constructor
    · rintro ⟨s, h⟩
      obtain ⟨hs, hline⟩ := checkWinnerGo_sound board TicTacToeLogic.lines s h
      exact ⟨s, hs, hline⟩
    · rintro ⟨s, hs, hline⟩
      exact checkWinnerGo_complete board TicTacToeLogic.lines s hs hline

/-- Witness for C1 at a concrete input: on the top-row-of-X board the scan
returns X and the amended soundness places the X triple on a canonical
line. -/
theorem c1_win_scan_witness :
    TicTacToeLogic.checkTicTacToeWinner c1BoardXO = some "X"
    ∧ ("X" ≠ "" ∧ lineFilledWith c1BoardXO "X") :=
  ⟨by decide, c1_win_scan.1 c1BoardXO "X" (by decide)⟩

/-- Helper for scan lemmas: membership in the descending row list of
`getDropRow` is exactly being a row index below 6. -/
theorem mem_dropRows_iff (r : Nat) : r ∈ ([5, 4, 3, 2, 1, 0] : List Nat) ↔ r < 6 := by
  simp only [List.mem_cons, List.mem_singleton, List.not_mem_nil, or_false]
  omega

/-- The drop-row scan returns nothing iff no scanned row slot is `null`. -/
theorem getDropRowGo_eq_none_iff (board : List (Option String)) (col : Nat)
    (rs : List Nat) :
    Connect4Logic.getDropRowGo board col rs = none ↔
      ∀ r ∈ rs, cellIsNull board (r * 7 + col) = false := by
  induction rs with
  | nil => simp [Connect4Logic.getDropRowGo]
  | cons r rs ih =>
    rw [Connect4Logic.getDropRowGo]
    split
    · rename_i hr
      constructor
      · intro h; exact absurd h (by simp)
      · intro h; exact absurd (h r (List.mem_cons_self r rs)) (by simp [hr])
    · rename_i hr
      rw [ih]
      constructor
      · intro h q hq
        rcases List.mem_cons.mp hq with rfl | hq2
        · simpa using hr
        · exact h q hq2
      · intro h q hq; exact h q (List.mem_cons_of_mem _ hq)

/-- `getDropRow` finds no row iff all 6 row slots of the column are
non-null (the column is full). -/
theorem getDropRow_eq_none_iff (board : List (Option String)) (col : Nat) :
    Connect4Logic.getDropRow board col = none ↔
      ∀ r, r < 6 → cellIsNull board (r * 7 + col) = false := by
  rw [Connect4Logic.getDropRow, getDropRowGo_eq_none_iff]
  constructor
  · intro h r hr; exact h r ((mem_dropRows_iff r).mpr hr)
  · intro h r hr; exact h r ((mem_dropRows_iff r).mp hr)

/-- `getDropRow` returns the bottom-most `null` slot: the returned row is
`null` and every row strictly below it in the column is occupied. -/
theorem getDropRow_eq_some (board : List (Option String)) (col : Nat)
    (r : Nat) (h : Connect4Logic.getDropRow board col = some r) :
    r < 6 ∧ cellIsNull board (r * 7 + col) = true ∧
      ∀ q, r < q → q < 6 → cellIsNull board (q * 7 + col) = false := by
  simp only [Connect4Logic.getDropRow, Connect4Logic.getDropRowGo] at h
  split_ifs at h with h5 h4 h3 h2 h1 h0
  · cases h
    exact ⟨by omega, h5, fun q hq1 hq2 => by omega⟩
  · cases h
    refine ⟨by omega, h4, ?_⟩
    intro q hq1 hq2
    interval_cases q
    simp_all
  · cases h
    refine ⟨by omega, h3, ?_⟩
    intro q hq1 hq2
    interval_cases q <;> simp_all
  · cases h
    refine ⟨by omega, h2, ?_⟩
    intro q hq1 hq2
    interval_cases q <;> simp_all
  · cases h
    refine ⟨by omega, h1, ?_⟩
    intro q hq1 hq2
    interval_cases q <;> simp_all
  · cases h
    refine ⟨by omega, h0, ?_⟩
    intro q hq1 hq2
    interval_cases q <;> simp_all

/-- Inversion of a successful Connect-4 move: the validations passed, and
the result is exactly the source's construction — board with the mover's
symbol dropped at the scanned row, rescanned winner, draw flag, and winner
id. -/
theorem connect4Move_ok_inv (st : GameState) (column : Int) (pid : String)
    (players : List GamePlayer) (res : MoveResult)
    (h : Connect4Logic.validateAndApplyConnect4Move st column pid players
      = .ok res) :
    ∃ row player symbol,
      (0 ≤ column ∧ column < 7) ∧
      Connect4Logic.getDropRow st.board column.toNat = some row ∧
      st.gameOver = false ∧
      players.find? (fun p => p.userId == pid) = some player ∧
      player.symbol = some symbol ∧ symbol ≠ "" ∧
      res.newState.board
        = st.board.set (row * 7 + column.toNat) (some symbol) ∧
      res.newState.winner
        = Connect4Logic.checkConnect4Winner res.newState.board ∧
      res.newState.isDraw = (!(jsTruthyStr res.newState.winner)
        && res.newState.board.all (fun cell => cell != none)) ∧
      res.newState.gameOver
        = ((res.newState.winner != none) || res.newState.isDraw) ∧
      res.gameOver = res.newState.gameOver ∧
      res.winnerId = (if jsTruthyStr res.newState.winner then
          match players.find? (fun p => p.symbol == res.newState.winner) with
          | some p => if p.userId == "" then none else some p.userId
          | none => none
        else none) := by
  unfold Connect4Logic.validateAndApplyConnect4Move at h
  split at h
  · exact absurd h (by simp)
  · rename_i hcol
    split at h
    · exact absurd h (by simp)
    · rename_i row hdrop
      split at h
      · exact absurd h (by simp)
      · rename_i hgo
        split at h
        · exact absurd h (by simp)
        · rename_i player hfind
          split at h
          · exact absurd h (by simp)
          · rename_i symbol hsym
            split at h
            · exact absurd h (by simp)
            · rename_i hne
              simp only [Except.ok.injEq] at h
              subst h
              refine ⟨row, player, symbol, ?_, hdrop, ?_, hfind, hsym, ?_,
                rfl, rfl, rfl, rfl, rfl, rfl⟩
              · simp only [Bool.or_eq_true, decide_eq_true_eq, not_or]
                  at hcol
                omega
              · simpa using hgo
              · simpa using hne

/-- An in-range Connect-4 move fails with `columnFull` exactly when the
drop-row scan finds no `null` slot. -/
theorem connect4Move_columnFull_iff (st : GameState) (c : Nat) (pid : String)
    (players : List GamePlayer) (hc : c < 7) :
    (Connect4Logic.validateAndApplyConnect4Move st (c : Int) pid players
        = .error .columnFull)
      ↔ Connect4Logic.getDropRow st.board c = none := by
  constructor
  · intro h
    unfold Connect4Logic.validateAndApplyConnect4Move at h
    split at h
    · exact absurd h (by simp)
    · split at h
      · rename_i heq
        rw [Int.toNat_natCast] at heq
        exact heq
      · split at h
        · exact absurd h (by simp)
        · split at h
          · exact absurd h (by simp)
          · split at h
            · exact absurd h (by simp)
            · split at h
              · exact absurd h (by simp)
              · exact absurd h (by simp)
  · intro h
    have hcol : (decide ((c : Int) < 0) || decide ((7 : Int) ≤ (c : Int)))
        = false := by
      simp only [Bool.or_eq_false_iff, decide_eq_false_iff_not]
      omega
    unfold Connect4Logic.validateAndApplyConnect4Move
    rw [Int.toNat_natCast, h]
    simp only [hcol, Bool.false_eq_true, if_false]

/-- C2: gravity and the column-full error of the Connect-Four engine.
(1) For an in-range column, the move fails with `columnFull` exactly when
all 6 row slots of the column are non-null; (2) an accepted move places the
mover's symbol at the lowest unoccupied row of the column — a `null` slot
with every lower row occupied, found scanning from the bottom row upward;
(3) from the initial state, six alternating drops into column 3 succeed and
the seventh fails with the column-full error. -/
theorem c2_gravity :
    (∀ (st : GameState) (c : Nat) (pid : String)
      (players : List GamePlayer), c < 7 →
      (Connect4Logic.validateAndApplyConnect4Move st (c : Int) pid players
          = .error .columnFull
        ↔ ∀ r, r < 6 → cellIsNull st.board (r * 7 + c) = false))
    ∧ (∀ (st : GameState) (c : Nat) (pid : String)
        (players : List GamePlayer) (res : MoveResult), c < 7 →
        Connect4Logic.validateAndApplyConnect4Move st (c : Int) pid players
          = .ok res →
        ∃ row player symbol,
          row < 6 ∧
          cellIsNull st.board (row * 7 + c) = true ∧
          (∀ q, row < q → q < 6 → cellIsNull st.board (q * 7 + c) = false) ∧
          players.find? (fun p => p.userId == pid) = some player ∧
          player.symbol = some symbol ∧
          res.newState.board = st.board.set (row * 7 + c) (some symbol))
    ∧ (applyC4Moves c2Players c2Initial (c2SevenMoves.take 6)).toOption.isSome
        = true
    ∧ applyC4Moves c2Players c2Initial c2SevenMoves
        = .error .columnFull := by
  refine ⟨?_, ?_, rfl, rfl⟩
  · intro st c pid players hc
    rw [connect4Move_columnFull_iff st c pid players hc,
      getDropRow_eq_none_iff]
  · intro st c pid players res hc h
    obtain ⟨row, player, symbol, _, hdrop, _, hfind, hsym, _, hboard, _⟩ :=
      connect4Move_ok_inv st (c : Int) pid players res h
    rw [Int.toNat_natCast] at hdrop hboard
    obtain ⟨hrow, hnull, habove⟩ := getDropRow_eq_some st.board c row hdrop
    exact ⟨row, player, symbol, hrow, hnull, habove, hfind, hsym, hboard⟩

/-- Witness for C2 at a concrete input: on a state whose column 3 is full,
the engine rejects a drop into column 3 with the column-full error. -/
theorem c2_gravity_witness :
    Connect4Logic.validateAndApplyConnect4Move c2FullColState
      ((3 : Nat) : Int) "p1" c2Players = .error .columnFull :=
  (c2_gravity.1 c2FullColState 3 "p1" c2Players (by decide)).mpr (by decide)

/-- C10: the Connect-Four payload keys are interchangeable.  A payload
carrying only `position: c` yields exactly the same result (state, flags,
winner id, or error) as one carrying only `column: c`, and when both keys
are present `column` takes precedence: the result equals that of
`column` alone, whatever `position` holds. -/
theorem c10_payload_keys :
    (∀ (st : GameState) (pid : String) (players : List GamePlayer)
      (c : Int),
      Connect4Logic.validateAndApplyMove st
          { position := some c, column := none } pid players
        = Connect4Logic.validateAndApplyMove st
          { position := none, column := some c } pid players)
    ∧ (∀ (st : GameState) (pid : String) (players : List GamePlayer)
        (c p : Int),
      Connect4Logic.validateAndApplyMove st
          { position := some p, column := some c } pid players
        = Connect4Logic.validateAndApplyMove st
          { position := none, column := some c } pid players) :=
  ⟨fun _ _ _ _ => rfl, fun _ _ _ _ _ => rfl⟩

/-- Inversion of a successful Tic-Tac-Toe move: the validations passed, and
the result is exactly the source's construction — board with the mover's
symbol at the chosen position, rescanned winner, draw flag, and winner
id. -/
theorem ticTacToeMove_ok_inv (st : GameState) (position : Int)
    (pid : String) (players : List GamePlayer) (res : MoveResult)
    (h : TicTacToeLogic.validateAndApplyTicTacToeMove st position pid players
      = .ok res) :
    ∃ player symbol,
      (0 ≤ position ∧ position ≤ 8) ∧
      cellIsNull st.board position.toNat = true ∧
      st.gameOver = false ∧
      players.find? (fun p => p.userId == pid) = some player ∧
      player.symbol = some symbol ∧ symbol ≠ "" ∧
      res.newState.board = st.board.set position.toNat (some symbol) ∧
      res.newState.winner
        = TicTacToeLogic.checkTicTacToeWinner res.newState.board ∧
      res.newState.isDraw = (!(jsTruthyStr res.newState.winner)
        && res.newState.board.all (fun cell => cell != none)) ∧
      res.newState.gameOver
        = ((res.newState.winner != none) || res.newState.isDraw) ∧
      res.gameOver = res.newState.gameOver ∧
      res.winnerId = (if jsTruthyStr res.newState.winner then
          match players.find? (fun p => p.symbol == res.newState.winner) with
          | some p => if p.userId == "" then none else some p.userId
          | none => none
        else none) := by
  unfold TicTacToeLogic.validateAndApplyTicTacToeMove at h
  split at h
  · exact absurd h (by simp)
  · rename_i hpos
    split at h
    · exact absurd h (by simp)
    · rename_i htaken
      split at h
      · exact absurd h (by simp)
      · rename_i hgo
        split at h
        · exact absurd h (by simp)
        · rename_i player hfind
          split at h
          · exact absurd h (by simp)
          · rename_i symbol hsym
            split at h
            · exact absurd h (by simp)
            · rename_i hne
              simp only [Except.ok.injEq] at h
              subst h
              refine ⟨player, symbol, ?_, ?_, ?_, hfind, hsym, ?_,
                rfl, rfl, rfl, rfl, rfl, rfl⟩
              · simp only [Bool.or_eq_true, decide_eq_true_eq, not_or]
                  at hpos
                omega
              · simpa using htaken
              · simpa using hgo
              · simpa using hne

/-- Writing a string into a `null` cell raises the non-null count by
exactly one. -/
theorem countNonNull_set (board : List (Option String)) (i : Nat)
    (s : String) (h : board.get? i = some none) :
    countNonNull (board.set i (some s)) = countNonNull board + 1 := by
  induction board generalizing i with
  | nil => simp at h
  | cons hd tl ih =>
    cases i with
    | zero =>
      simp only [List.get?] at h
      cases h
      simp [countNonNull, List.set, List.filter_cons]
    | succ n =>
      have h2 : tl.get? n = some none := by simpa using h
      have hrec := ih n h2
      simp only [List.set, countNonNull, List.filter_cons] at hrec ⊢
      cases hp : (hd != none) <;> simp [hp, hrec]

/-- In a run of accepted moves, each step raising the non-null count by one
makes the recorded sequence numbers the contiguous range starting just
above the initial count. -/
theorem runMoves_seqNums (step : GameState → MoveReq → Option GameState)
    (hstep : ∀ st m st2, step st m = some st2 →
      countNonNull st2.board = countNonNull st.board + 1) :
    ∀ (moves : List MoveReq) (st stf : GameState) (ns : List Nat),
      runMoves step st moves = some (stf, ns) →
      ns = List.range' (countNonNull st.board + 1) ns.length := by
  intro moves
  induction moves with
  | nil =>
    intro st stf ns h
    simp only [runMoves, Option.some.injEq, Prod.mk.injEq] at h
    obtain ⟨-, h2⟩ := h
    subst h2
    simp
  | cons m ms ih =>
    intro st stf ns h
    rw [runMoves] at h
    split at h
    · exact absurd h (by simp)
    · rename_i st2 heq
      split at h
      · exact absurd h (by simp)
      · rename_i stf2 ns2 heq2
        simp only [Option.some.injEq, Prod.mk.injEq] at h
        obtain ⟨-, h2⟩ := h
        subst h2
        have hns2 := ih st2 stf2 ns2 heq2
        have hcount := hstep st m st2 heq
        rw [List.length_cons, List.range'_succ, hns2, hcount]
        simp [List.length_range']

/-- An accepted Tic-Tac-Toe step raises the non-null count by one. -/
theorem tttStep_count (players : List GamePlayer) :
    ∀ st m st2, tttStep players st m = some st2 →
      countNonNull st2.board = countNonNull st.board + 1 := by
  intro st m st2 h
  unfold tttStep at h
  cases hv : TicTacToeLogic.validateAndApplyTicTacToeMove st m.position
      m.playerId players with
  | error e => rw [hv] at h; simp [Except.toOption] at h
  | ok res =>
    rw [hv] at h
    simp only [Except.toOption, Option.map_some] at h
    cases h
    obtain ⟨player, symbol, -, hnull, -, -, -, -, hboard, -, -, -, -, -⟩ :=
      ticTacToeMove_ok_inv st m.position m.playerId players res hv
    rw [hboard]
    refine countNonNull_set st.board (m.position).toNat symbol ?_
    simpa [cellIsNull] using hnull

/-- An accepted Connect-Four step raises the non-null count by one. -/
theorem c4Step_count (players : List GamePlayer) :
    ∀ st m st2, c4Step players st m = some st2 →
      countNonNull st2.board = countNonNull st.board + 1 := by
  intro st m st2 h
  unfold c4Step at h
  cases hv : Connect4Logic.validateAndApplyConnect4Move st m.position
      m.playerId players with
  | error e => rw [hv] at h; simp [Except.toOption] at h
  | ok res =>
    rw [hv] at h
    simp only [Except.toOption, Option.map_some] at h
    cases h
    obtain ⟨row, player, symbol, -, hdrop, -, -, -, -, hboard, -, -, -, -,
        -⟩ := connect4Move_ok_inv st m.position m.playerId players res hv
    obtain ⟨-, hnull, -⟩ :=
      getDropRow_eq_some st.board (m.position).toNat row hdrop
    rw [hboard]
    refine countNonNull_set st.board (row * 7 + (m.position).toNat) symbol ?_
    simpa [cellIsNull] using hnull

/-- Inversion of a successful controller move: the session was in progress,
it was the caller's turn, the caller is on the roster, the engine accepted
the move, and the updated session and recorded move are exactly the
source's construction. -/
theorem makeMove_ok_inv (game : Game) (position : Int) (uid : String)
    (game2 : Game) (mv : MoveRecord)
    (h : GameController.makeMove game position uid = .ok (game2, mv)) :
    ∃ result nextPlayerId,
      game.status = .inProgress ∧
      game.currentPlayerId = uid ∧
      game.players.any (fun p => p.userId == uid) = true ∧
      GameLogicService.validateAndApplyMove game.gameType game.state
        { position := some position, column := none } uid game.players
        = .ok result ∧
      GameLogicService.getNextPlayerId game.gameType uid game.players
        = some nextPlayerId ∧
      game2 = { game with
        state := result.newState,
        currentPlayerId := nextPlayerId,
        status := if result.gameOver then .completed else game.status,
        winnerId :=
          if result.gameOver then result.winnerId else game.winnerId } ∧
      mv = { playerId := uid,
             position := position,
             moveNumber := countNonNull game.state.board + 1 } := by
  unfold GameController.makeMove at h
  split at h
  · exact absurd h (by simp)
  · rename_i hstat
    split at h
    · exact absurd h (by simp)
    · rename_i hturn
      split at h
      · exact absurd h (by simp)
      · rename_i hmem
        split at h
        · exact absurd h (by simp)
        · rename_i result hval
          split at h
          · exact absurd h (by simp)
          · rename_i nextPlayerId hnext
            simp only [Except.ok.injEq, Prod.mk.injEq] at h
            obtain ⟨h1, h2⟩ := h
            exact ⟨result, nextPlayerId, not_ne_iff.mp hstat,
              not_ne_iff.mp hturn, by simpa using hmem, hval, hnext,
              h1.symm, h2.symm⟩

/-- C8: sequence numbers of one session form the contiguous range 1..N.
Every accepted Tic-Tac-Toe or Connect-Four move raises the count of
non-null board cells by exactly one; the controller numbers each recorded
move as that pre-move count plus one; hence any serialized run of accepted
moves from an engine's initial state records exactly the numbers
1, 2, ..., N (`List.range' 1 N`) with no gaps or repeats. -/
theorem c8_sequence_numbers :
    (∀ (st : GameState) (position : Int) (pid : String)
      (players : List GamePlayer) (res : MoveResult),
      TicTacToeLogic.validateAndApplyTicTacToeMove st position pid players
        = .ok res →
      countNonNull res.newState.board = countNonNull st.board + 1)
    ∧ (∀ (st : GameState) (column : Int) (pid : String)
        (players : List GamePlayer) (res : MoveResult),
      Connect4Logic.validateAndApplyConnect4Move st column pid players
        = .ok res →
      countNonNull res.newState.board = countNonNull st.board + 1)
    ∧ (∀ (game : Game) (position : Int) (uid : String) (game2 : Game)
        (mv : MoveRecord),
      GameController.makeMove game position uid = .ok (game2, mv) →
      mv.moveNumber = countNonNull game.state.board + 1)
    ∧ (∀ (players : List GamePlayer) (st0 : GameState),
      TicTacToeLogic.createInitialState players = .ok st0 →
      ∀ moves stf ns, runMoves (tttStep players) st0 moves = some (stf, ns) →
        ns = List.range' 1 ns.length)
    ∧ (∀ (players : List GamePlayer) (st0 : GameState),
      Connect4Logic.createInitialState players = .ok st0 →
      ∀ moves stf ns, runMoves (c4Step players) st0 moves = some (stf, ns) →
        ns = List.range' 1 ns.length) := by
  refine ⟨?_, ?_, ?_, ?_, ?_⟩
  · intro st position pid players res h
    exact tttStep_count players st { playerId := pid, position := position }
      res.newState (by simp [tttStep, h, Except.toOption])
  · intro st column pid players res h
    exact c4Step_count players st { playerId := pid, position := column }
      res.newState (by simp [c4Step, h, Except.toOption])
  · intro game position uid game2 mv h
    obtain ⟨result, next, -, -, -, -, -, -, hmv⟩ :=
      makeMove_ok_inv game position uid game2 mv h
    rw [hmv]
  · intro players st0 h0 moves stf ns hrun
    have hcount : countNonNull st0.board = 0 := by
      unfold TicTacToeLogic.createInitialState at h0
      split at h0
      · exact absurd h0 (by simp)
      · simp only [Except.ok.injEq] at h0
        subst h0
        decide
    have := runMoves_seqNums (tttStep players) (tttStep_count players)
      moves st0 stf ns hrun
    rwa [hcount] at this
  · intro players st0 h0 moves stf ns hrun
    have hcount : countNonNull st0.board = 0 := by
      unfold Connect4Logic.createInitialState at h0
      split at h0
      · exact absurd h0 (by simp)
      · simp only [Except.ok.injEq] at h0
        subst h0
        decide
    have := runMoves_seqNums (c4Step players) (c4Step_count players)
      moves st0 stf ns hrun
    rwa [hcount] at this

/-- Witness for C8 at a concrete input: a two-move Tic-Tac-Toe run from the
initial state records exactly the numbers [1, 2]. -/
theorem c8_sequence_numbers_witness :
    ∃ stf ns, runMoves (tttStep c2Players) c8TttInit c8Moves = some (stf, ns)
      ∧ ns = List.range' 1 ns.length := by
  obtain ⟨stf, ns, hr⟩ : ∃ stf ns,
      runMoves (tttStep c2Players) c8TttInit c8Moves = some (stf, ns) :=
    ⟨_, _, rfl⟩
  exact ⟨stf, ns, hr,
    c8_sequence_numbers.2.2.2.1 c2Players c8TttInit rfl c8Moves stf ns hr⟩

/-- A cell value read from a board is one of its entries. -/
theorem cellVal_mem (board : List (Option String)) (i : Nat) (s : String)
    (h : cellVal board i = some s) : (some s) ∈ board := by
  unfold cellVal at h
  rw [Option.join_eq_some] at h
  exact List.get?_mem h

/-- Setting a non-empty marker preserves the no-empty-marker invariant. -/
theorem boardTruthy_set (board : List (Option String)) (i : Nat) (s : String)
    (hb : boardTruthy board) (hs : s ≠ "") :
    boardTruthy (board.set i (some s)) := by
  intro cell hmem
  rcases List.mem_or_eq_of_mem_set hmem with h1 | h2
  · exact hb cell h1
  · subst h2
    simpa using hs

/-- A winner reported by the Connect-Four scan is a marker present on the
board. -/
theorem c4_checkWinnerGo_mem (board : List (Option String))
    (L : List (Nat × Nat)) (s : String)
    (h : Connect4Logic.checkWinnerGo board L = some s) :
    (some s) ∈ board := by
  induction L with
  | nil => simp [Connect4Logic.checkWinnerGo] at h
  | cons hd rest ih =>
    obtain ⟨row, col⟩ := hd
    simp only [Connect4Logic.checkWinnerGo] at h
    split at h
    · exact ih h
    · rename_i symbol heq
      split at h
      · cases h; exact cellVal_mem board _ s heq
      · split at h
        · cases h; exact cellVal_mem board _ s heq
        · split at h
          · cases h; exact cellVal_mem board _ s heq
          · split at h
            · cases h; exact cellVal_mem board _ s heq
            · exact ih h

/-- Postcondition of an accepted Tic-Tac-Toe move from a board with no
empty-string markers: the invariant is preserved; when the new state says
game over, exactly one of winner/isDraw holds; isDraw holds exactly when
there is no winner and the board is full; and (when board markers come
from roster symbols and user ids are non-empty) the returned winner id is
set exactly when the state's winner is. -/
theorem tttMove_post (st : GameState) (position : Int) (pid : String)
    (players : List GamePlayer) (res : MoveResult)
    (h : TicTacToeLogic.validateAndApplyTicTacToeMove st position pid players
      = .ok res)
    (ht : boardTruthy st.board) :
    boardTruthy res.newState.board ∧
    res.gameOver = res.newState.gameOver ∧
    (res.newState.gameOver = true →
      (res.newState.winner ≠ none ∧ res.newState.isDraw = false)
      ∨ (res.newState.winner = none ∧ res.newState.isDraw = true)) ∧
    (res.newState.isDraw = true ↔ (res.newState.winner = none ∧
      res.newState.board.all (fun cell => cell != none) = true)) ∧
    ((∀ cell ∈ st.board, cell = none ∨ ∃ p ∈ players, p.symbol = cell) →
      (∀ p ∈ players, p.userId ≠ "") →
      (res.winnerId ≠ none ↔ res.newState.winner ≠ none)) := by
  obtain ⟨player, symbol, -, -, -, hfind, hsym, hne, hboard, hwin, hdraw,
      hgo, hresgo, hwid⟩ :=
    ticTacToeMove_ok_inv st position pid players res h
  have htb : boardTruthy res.newState.board := by
    rw [hboard]
    exact boardTruthy_set st.board position.toNat symbol ht hne
  have hsne : ∀ s, res.newState.winner = some s → s ≠ "" := by
    intro s hw
    have hcheck : TicTacToeLogic.checkTicTacToeWinner res.newState.board
        = some s := by rw [← hwin, hw]
    exact (checkWinnerGo_sound res.newState.board TicTacToeLogic.lines s
      hcheck).1
  refine ⟨htb, hresgo, ?_, ?_, ?_⟩
  · intro hgot
    cases hw : res.newState.winner with
    | some s =>
      left
      refine ⟨by simp [hw], ?_⟩
      rw [hdraw, hw]
      simp [jsTruthyStr, hsne s hw]
    | none =>
      right
      refine ⟨rfl, ?_⟩
      rw [hgo, hw] at hgot
      simpa using hgot
  · cases hw : res.newState.winner with
    | some s =>
      rw [hdraw, hw]
      simp [jsTruthyStr, hsne s hw]
    | none =>
      rw [hdraw, hw]
      simp [jsTruthyStr]
  · intro hcells huids
    cases hw : res.newState.winner with
    | none =>
      rw [hwid, hw]
      simp [jsTruthyStr]
    | some s =>
      have hcheck : TicTacToeLogic.checkTicTacToeWinner res.newState.board
          = some s := by rw [← hwin, hw]
      obtain ⟨hs, t, ht2, htriple⟩ :=
        checkWinnerGo_sound res.newState.board TicTacToeLogic.lines s hcheck
      have hmem : (some s) ∈ res.newState.board :=
        cellVal_mem res.newState.board t.1 s htriple.1
      have hq : ∃ q ∈ players, q.symbol = some s := by
        rw [hboard] at hmem
        rcases List.mem_or_eq_of_mem_set hmem with h1 | h2
        · rcases hcells (some s) h1 with h3 | ⟨q, hq1, hq2⟩
          · exact absurd h3 (by simp)
          · exact ⟨q, hq1, hq2⟩
        · refine ⟨player, List.mem_of_find?_eq_some hfind, ?_⟩
          rw [hsym]
          exact h2.symm
      have hfq : ∃ q2, players.find? (fun p => p.symbol == some s)
          = some q2 := by
        obtain ⟨q, hq1, hq2⟩ := hq
        cases hfind2 : players.find? (fun p => p.symbol == some s) with
        | some q2 => exact ⟨q2, rfl⟩
        | none =>
          rw [List.find?_eq_none] at hfind2
          have hqt : (q.symbol == some s) = true := by simp [hq2]
          exact absurd hqt (by simpa using hfind2 q hq1)
      obtain ⟨q2, hq2eq⟩ := hfq
      have hq2uid : q2.userId ≠ "" :=
        huids q2 (List.mem_of_find?_eq_some hq2eq)
      rw [hw] at hwid
      rw [hq2eq] at hwid
      rw [hwid]
      simp [jsTruthyStr, hs, hq2uid]

/-- Postcondition of an accepted Connect-Four move from a board with no
empty-string markers: mirror of `tttMove_post`. -/
theorem c4Move_post (st : GameState) (column : Int) (pid : String)
    (players : List GamePlayer) (res : MoveResult)
    (h : Connect4Logic.validateAndApplyConnect4Move st column pid players
      = .ok res)
    (ht : boardTruthy st.board) :
    boardTruthy res.newState.board ∧
    res.gameOver = res.newState.gameOver ∧
    (res.newState.gameOver = true →
      (res.newState.winner ≠ none ∧ res.newState.isDraw = false)
      ∨ (res.newState.winner = none ∧ res.newState.isDraw = true)) ∧
    (res.newState.isDraw = true ↔ (res.newState.winner = none ∧
      res.newState.board.all (fun cell => cell != none) = true)) ∧
    ((∀ cell ∈ st.board, cell = none ∨ ∃ p ∈ players, p.symbol = cell) →
      (∀ p ∈ players, p.userId ≠ "") →
      (res.winnerId ≠ none ↔ res.newState.winner ≠ none)) := by
  obtain ⟨row, player, symbol, -, -, -, hfind, hsym, hne, hboard, hwin,
      hdraw, hgo, hresgo, hwid⟩ :=
    connect4Move_ok_inv st column pid players res h
  have htb : boardTruthy res.newState.board := by
    rw [hboard]
    exact boardTruthy_set st.board (row * 7 + column.toNat) symbol ht hne
  have hsne : ∀ s, res.newState.winner = some s → s ≠ "" := by
    intro s hw
    have hcheck : Connect4Logic.checkConnect4Winner res.newState.board
        = some s := by rw [← hwin, hw]
    have hmem : (some s) ∈ res.newState.board :=
      c4_checkWinnerGo_mem res.newState.board Connect4Logic.scanCells s
        hcheck
    intro heq
    exact htb (some s) hmem (by rw [heq])
  refine ⟨htb, hresgo, ?_, ?_, ?_⟩
  · intro hgot
    cases hw : res.newState.winner with
    | some s =>
      left
      refine ⟨by simp [hw], ?_⟩
      rw [hdraw, hw]
      simp [jsTruthyStr, hsne s hw]
    | none =>
      right
      refine ⟨rfl, ?_⟩
      rw [hgo, hw] at hgot
      simpa using hgot
  · cases hw : res.newState.winner with
    | some s =>
      rw [hdraw, hw]
      simp [jsTruthyStr, hsne s hw]
    | none =>
      rw [hdraw, hw]
      simp [jsTruthyStr]
  · intro hcells huids
    cases hw : res.newState.winner with
    | none =>
      rw [hwid, hw]
      simp [jsTruthyStr]
    | some s =>
      have hs : s ≠ "" := hsne s hw
      have hcheck : Connect4Logic.checkConnect4Winner res.newState.board
          = some s := by rw [← hwin, hw]
      have hmem : (some s) ∈ res.newState.board :=
        c4_checkWinnerGo_mem res.newState.board Connect4Logic.scanCells s
          hcheck
      have hq : ∃ q ∈ players, q.symbol = some s := by
        rw [hboard] at hmem
        rcases List.mem_or_eq_of_mem_set hmem with h1 | h2
        · rcases hcells (some s) h1 with h3 | ⟨q, hq1, hq2⟩
          · exact absurd h3 (by simp)
          · exact ⟨q, hq1, hq2⟩
        · refine ⟨player, List.mem_of_find?_eq_some hfind, ?_⟩
          rw [hsym]
          exact h2.symm
      have hfq : ∃ q2, players.find? (fun p => p.symbol == some s)
          = some q2 := by
        obtain ⟨q, hq1, hq2⟩ := hq
        cases hfind2 : players.find? (fun p => p.symbol == some s) with
        | some q2 => exact ⟨q2, rfl⟩
        | none =>
          rw [List.find?_eq_none] at hfind2
          have hqt : (q.symbol == some s) = true := by simp [hq2]
          exact absurd hqt (by simpa using hfind2 q hq1)
      obtain ⟨q2, hq2eq⟩ := hfq
      have hq2uid : q2.userId ≠ "" :=
        huids q2 (List.mem_of_find?_eq_some hq2eq)
      rw [hw] at hwid
      rw [hq2eq] at hwid
      rw [hwid]
      simp [jsTruthyStr, hs, hq2uid]

/-- Inversion of the Tic-Tac-Toe wrapper on a position-only payload. -/
theorem ttt_wrapper_pos_ok_inv (st : GameState) (pos : Int) (pid : String)
    (players : List GamePlayer) (res : MoveResult)
    (h : TicTacToeLogic.validateAndApplyMove st
      { position := some pos, column := none } pid players = .ok res) :
    TicTacToeLogic.validateAndApplyTicTacToeMove st pos pid players
      = .ok res := by
  unfold TicTacToeLogic.validateAndApplyMove at h
  split at h
  · exact absurd h (by simp)
  · exact h

/-- Inversion of the Connect-Four wrapper on a position-only payload (the
legacy key: `column` is absent, so `position` is used). -/
theorem c4_wrapper_pos_ok_inv (st : GameState) (pos : Int) (pid : String)
    (players : List GamePlayer) (res : MoveResult)
    (h : Connect4Logic.validateAndApplyMove st
      { position := some pos, column := none } pid players = .ok res) :
    Connect4Logic.validateAndApplyConnect4Move st pos pid players
      = .ok res := by
  unfold Connect4Logic.validateAndApplyMove at h
  split at h
  · exact absurd h (by simp)
  · exact h

/-- C3: terminal outcomes are exclusive.  Engine-produced boards never hold
an empty-string marker (true of both initial states and preserved by every
accepted move); on such boards, whenever an accepted move of either engine
sets gameOver, exactly one of {winner non-null, isDraw} holds — never both,
never neither — and isDraw holds exactly when there is no winner and every
cell is occupied.  At session level, a `makeMove` that marks the session
Completed records exactly one of {winnerId set, isDraw}, the extra
hypotheses (board markers drawn from roster symbols, non-empty user ids)
again being invariants of every real session. -/
theorem c3_terminal_exclusive :
    (∀ (players : List GamePlayer) (st0 : GameState),
      TicTacToeLogic.createInitialState players = .ok st0 →
      boardTruthy st0.board)
    ∧ (∀ (players : List GamePlayer) (st0 : GameState),
      Connect4Logic.createInitialState players = .ok st0 →
      boardTruthy st0.board)
    ∧ (∀ (st : GameState) (position : Int) (pid : String)
        (players : List GamePlayer) (res : MoveResult),
      TicTacToeLogic.validateAndApplyTicTacToeMove st position pid players
        = .ok res →
      boardTruthy st.board →
      boardTruthy res.newState.board ∧
      (res.newState.gameOver = true →
        (res.newState.winner ≠ none ∧ res.newState.isDraw = false)
        ∨ (res.newState.winner = none ∧ res.newState.isDraw = true)) ∧
      (res.newState.isDraw = true ↔ (res.newState.winner = none ∧
        res.newState.board.all (fun cell => cell != none) = true)))
    ∧ (∀ (st : GameState) (column : Int) (pid : String)
        (players : List GamePlayer) (res : MoveResult),
      Connect4Logic.validateAndApplyConnect4Move st column pid players
        = .ok res →
      boardTruthy st.board →
      boardTruthy res.newState.board ∧
      (res.newState.gameOver = true →
        (res.newState.winner ≠ none ∧ res.newState.isDraw = false)
        ∨ (res.newState.winner = none ∧ res.newState.isDraw = true)) ∧
      (res.newState.isDraw = true ↔ (res.newState.winner = none ∧
        res.newState.board.all (fun cell => cell != none) = true)))
    ∧ (∀ (game : Game) (position : Int) (uid : String) (game2 : Game)
        (mv : MoveRecord),
      GameController.makeMove game position uid = .ok (game2, mv) →
      boardTruthy game.state.board →
      (∀ cell ∈ game.state.board,
        cell = none ∨ ∃ p ∈ game.players, p.symbol = cell) →
      (∀ p ∈ game.players, p.userId ≠ "") →
      game2.status = .completed →
      ((game2.winnerId ≠ none ∧ game2.state.isDraw = false)
        ∨ (game2.winnerId = none ∧ game2.state.isDraw = true))) := by
  refine ⟨?_, ?_, ?_, ?_, ?_⟩
  · intro players st0 h
    unfold TicTacToeLogic.createInitialState at h
    split at h
    · exact absurd h (by simp)
    · simp only [Except.ok.injEq] at h
      subst h
      intro cell hmem
      have := List.eq_of_mem_replicate hmem
      subst this
      simp
  · intro players st0 h
    unfold Connect4Logic.createInitialState at h
    split at h
    · exact absurd h (by simp)
    · simp only [Except.ok.injEq] at h
      subst h
      intro cell hmem
      have := List.eq_of_mem_replicate hmem
      subst this
      simp
  · intro st position pid players res h ht
    obtain ⟨htb, -, hexcl, hdrawiff, -⟩ :=
      tttMove_post st position pid players res h ht
    exact ⟨htb, hexcl, hdrawiff⟩
  · intro st column pid players res h ht
    obtain ⟨htb, -, hexcl, hdrawiff, -⟩ :=
      c4Move_post st column pid players res h ht
    exact ⟨htb, hexcl, hdrawiff⟩
  · intro game position uid game2 mv h htruthy hcells huids hcomp
    obtain ⟨result, next, hstat, -, -, hval, -, hgame2, -⟩ :=
      makeMove_ok_inv game position uid game2 mv h
    have hstatus2 : game2.status
        = if result.gameOver then .completed else game.status := by
      rw [hgame2]
    have hwid2 : game2.winnerId
        = if result.gameOver then result.winnerId else game.winnerId := by
      rw [hgame2]
    have hstate2 : game2.state = result.newState := by rw [hgame2]
    cases hrg : result.gameOver with
    | false =>
      rw [hrg] at hstatus2
      simp only [if_neg Bool.false_ne_true] at hstatus2
      rw [hcomp, hstat] at hstatus2
      exact absurd hstatus2 (by simp)
    | true =>
      rw [hrg] at hstatus2 hwid2
      simp only [if_pos] at hstatus2 hwid2
      cases hgt : game.gameType with
      | ticTacToe =>
        rw [hgt] at hval
        simp only [GameLogicService.validateAndApplyMove] at hval
        have heng := ttt_wrapper_pos_ok_inv game.state position uid
          game.players result hval
        obtain ⟨-, hresgo, hexcl, -, hwiniff⟩ :=
          tttMove_post game.state position uid game.players result heng
            htruthy
        have hgo2 : result.newState.gameOver = true := by rw [← hresgo, hrg]
        have hiff := hwiniff hcells huids
        rcases hexcl hgo2 with ⟨hw, hd⟩ | ⟨hw, hd⟩
        · refine Or.inl ⟨?_, ?_⟩
          · rw [hwid2]
            exact hiff.mpr hw
          · rw [hstate2]
            exact hd
        · refine Or.inr ⟨?_, ?_⟩
          · rw [hwid2]
            exact not_ne_iff.mp (fun hcon => (hiff.mp hcon) hw)
          · rw [hstate2]
            exact hd
      | connect4 =>
        rw [hgt] at hval
        simp only [GameLogicService.validateAndApplyMove] at hval
        have heng := c4_wrapper_pos_ok_inv game.state position uid
          game.players result hval
        obtain ⟨-, hresgo, hexcl, -, hwiniff⟩ :=
          c4Move_post game.state position uid game.players result heng
            htruthy
        have hgo2 : result.newState.gameOver = true := by rw [← hresgo, hrg]
        have hiff := hwiniff hcells huids
        rcases hexcl hgo2 with ⟨hw, hd⟩ | ⟨hw, hd⟩
        · refine Or.inl ⟨?_, ?_⟩
          · rw [hwid2]
            exact hiff.mpr hw
          · rw [hstate2]
            exact hd
        · refine Or.inr ⟨?_, ?_⟩
          · rw [hwid2]
            exact not_ne_iff.mp (fun hcon => (hiff.mp hcon) hw)
          · rw [hstate2]
            exact hd

/-- Witness for C3 at a concrete input: X completes the top row from
`c3NearWin`; the accepted move yields a game-over state with exactly one of
winner/isDraw (here: a winner and no draw). -/
theorem c3_terminal_exclusive_witness :
    ∃ res, TicTacToeLogic.validateAndApplyTicTacToeMove c3NearWin 2 "p1"
        c2Players = .ok res
      ∧ (res.newState.gameOver = true →
        (res.newState.winner ≠ none ∧ res.newState.isDraw = false)
        ∨ (res.newState.winner = none ∧ res.newState.isDraw = true)) := by
  obtain ⟨res, hr⟩ : ∃ res,
      TicTacToeLogic.validateAndApplyTicTacToeMove c3NearWin 2 "p1"
        c2Players = .ok res :=
    ⟨_, rfl⟩
  have hpost := c3_terminal_exclusive.2.2.1 c3NearWin 2 "p1" c2Players res
    hr (by decide)
  exact ⟨res, hr, hpost.2.1⟩

/-- The JS findIndex model returns the first matching index. -/
theorem findIndexInt_eq (p : GamePlayer → Bool) (l : List GamePlayer) :
    ∀ (i : Nat) (hi : i < l.length),
      p (l.get ⟨i, hi⟩) = true →
      (∀ (j : Nat) (hj : j < l.length), j < i →
        p (l.get ⟨j, hj⟩) = false) →
      findIndexInt p l = (i : Int) := by
  induction l with
  | nil => intro i hi; simp at hi
  | cons x xs ih =>
    intro i hi hp hbefore
    cases i with
    | zero =>
      simp only [List.get] at hp
      simp [findIndexInt, hp]
    | succ n =>
      have hpx : p x = false := hbefore 0 (by simp) (by omega)
      have hn : n < xs.length := by simpa using hi
      have hrec : findIndexInt p xs = (n : Int) := by
        refine ih n hn ?_ ?_
        · simpa using hp
        · intro j hj hji
          have := hbefore (j + 1) (by simpa using hj) (by omega)
          simpa using this
      rw [findIndexInt]
      simp only [hpx, Bool.false_eq_true, if_false]
      rw [hrec]
      have : ¬((n : Int) = -1) := by omega
      simp only [this, if_false]
      push_cast
      ring

/-- `getNextPlayerId` maps the roster entry at index i to the entry at
index (i+1) mod N, provided user ids are pairwise distinct. -/
theorem getNextPlayerIdImpl_at (l : List GamePlayer)
    (hdist : l.Pairwise (fun a b => a.userId ≠ b.userId))
    (i : Nat) (x : GamePlayer) (hx : l.get? i = some x) :
    getNextPlayerIdImpl x.userId l
      = (l.get? ((i + 1) % l.length)).map (fun p => p.userId) := by
  obtain ⟨hi, hget⟩ := List.get?_eq_some.mp hx
  have hfi : findIndexInt (fun q => q.userId == x.userId) l = (i : Int) := by
    refine findIndexInt_eq (fun q => q.userId == x.userId) l i hi ?_ ?_
    · rw [hget]
      simp
    · intro j hj hji
      have hne := List.pairwise_iff_get.mp hdist ⟨j, hj⟩ ⟨i, hi⟩ hji
      rw [hget] at hne
      simpa using hne
  have h1 : (((i : Int) + 1) % (l.length : Int)).toNat
      = (i + 1) % l.length := by
    have h2 : ((i : Int) + 1) = ((i + 1 : Nat) : Int) := by push_cast; ring
    rw [h2, ← Int.natCast_mod, Int.toNat_natCast]
  unfold getNextPlayerIdImpl
  simp only [hfi]
  rw [h1]

/-- Iterating `getNextPlayerId` k times from the entry at index i lands on
the entry at index (i+k) mod N, provided user ids are pairwise distinct. -/
theorem iterateNext_mod (l : List GamePlayer)
    (hdist : l.Pairwise (fun a b => a.userId ≠ b.userId)) :
    ∀ (k i : Nat) (x : GamePlayer), i < l.length → l.get? i = some x →
      iterateNext l k x.userId
        = (l.get? ((i + k) % l.length)).map (fun p => p.userId) := by
  intro k
  induction k with
  | zero =>
    intro i x hi hx
    rw [Nat.add_zero, Nat.mod_eq_of_lt hi, hx]
    rfl
  | succ k ih =>
    intro i x hi hx
    have hnext := getNextPlayerIdImpl_at l hdist i x hx
    have hlen : 0 < l.length := by omega
    have hj : (i + 1) % l.length < l.length := Nat.mod_lt _ hlen
    obtain ⟨y, hy⟩ : ∃ y, l.get? ((i + 1) % l.length) = some y :=
      ⟨_, List.get?_eq_get hj⟩
    have hnext2 : getNextPlayerIdImpl x.userId l = some y.userId := by
      rw [hnext, hy]
      rfl
    rw [iterateNext, hnext2]
    show iterateNext l k y.userId
      = (l.get? ((i + (k + 1)) % l.length)).map (fun p => p.userId)
    have hstep := ih ((i + 1) % l.length) y hj hy
    rw [hstep, Nat.mod_add_mod]
    have harith : i + 1 + k = i + (k + 1) := by omega
    rw [harith]

/-- C7: round-robin closure.  Both engines share one `getNextPlayerId`
(strict round-robin over the roster array wrapping at the end), and on any
non-empty roster of pairwise-distinct user ids (a roster is a set of
participants) containing the caller, N applications (N = roster size)
return the original caller's id. -/
theorem c7_round_robin :
    (∀ (uid : String) (players : List GamePlayer),
      Connect4Logic.getNextPlayerId uid players
        = TicTacToeLogic.getNextPlayerId uid players)
    ∧ (∀ (players : List GamePlayer) (uid : String),
      players ≠ [] →
      players.Pairwise (fun a b => a.userId ≠ b.userId) →
      (∃ p ∈ players, p.userId = uid) →
      iterateNext players players.length uid = some uid) := by
  constructor
  · intro uid players
    rfl
  · intro players uid hne hdist hmem
    obtain ⟨p, hp, huid⟩ := hmem
    obtain ⟨i, hi⟩ := List.mem_iff_get?.mp hp
    obtain ⟨hilt, -⟩ := List.get?_eq_some.mp hi
    subst huid
    rw [iterateNext_mod players hdist players.length i p hilt hi,
      Nat.add_mod_right, Nat.mod_eq_of_lt hilt, hi]
    rfl

/-- Witness for C7 at a concrete input: on a 3-player roster, three
applications of `getNextPlayerId` starting from the middle player return
that player. -/
theorem c7_round_robin_witness :
    iterateNext c7Players c7Players.length "b" = some "b" :=
  c7_round_robin.2 c7Players "b" (by decide) (by decide)
    ⟨{ userId := "b", username := "ub", displayName := "B",
       photoURL := none, symbol := some "O" }, by decide, rfl⟩

/-- An upsert leaves every other key untouched. -/
theorem upsert_other (db : StatsDB) (uid : String) (gt : GameType)
    (c : GameStats) (f : GameStats → GameStats) (u : String) (g : GameType)
    (h : ¬(u = uid ∧ g = gt)) :
    StatsRepository.upsert db uid gt c f u g = db u g := by
  simp [StatsRepository.upsert, h]

/-- `incrementWin` at its own key: wins and played rise by one, losses and
draws unchanged (an absent row reads as zeros). -/
theorem incrementWin_rowOf (db : StatsDB) (uid : String) (gt : GameType) :
    rowOf (StatsRepository.incrementWin db uid gt) uid gt
      = { wins := (rowOf db uid gt).wins + 1,
          losses := (rowOf db uid gt).losses,
          draws := (rowOf db uid gt).draws,
          played := (rowOf db uid gt).played + 1 } := by
  cases hdb : db uid gt <;>
    simp [rowOf, StatsRepository.incrementWin, StatsRepository.upsert, hdb]

/-- `incrementLoss` at its own key: losses and played rise by one. -/
theorem incrementLoss_rowOf (db : StatsDB) (uid : String) (gt : GameType) :
    rowOf (StatsRepository.incrementLoss db uid gt) uid gt
      = { wins := (rowOf db uid gt).wins,
          losses := (rowOf db uid gt).losses + 1,
          draws := (rowOf db uid gt).draws,
          played := (rowOf db uid gt).played + 1 } := by
  cases hdb : db uid gt <;>
    simp [rowOf, StatsRepository.incrementLoss, StatsRepository.upsert, hdb]

/-- `incrementDraw` at its own key: draws and played rise by one. -/
theorem incrementDraw_rowOf (db : StatsDB) (uid : String) (gt : GameType) :
    rowOf (StatsRepository.incrementDraw db uid gt) uid gt
      = { wins := (rowOf db uid gt).wins,
          losses := (rowOf db uid gt).losses,
          draws := (rowOf db uid gt).draws + 1,
          played := (rowOf db uid gt).played + 1 } := by
  cases hdb : db uid gt <;>
    simp [rowOf, StatsRepository.incrementDraw, StatsRepository.upsert, hdb]

/-- `incrementPlayed` at its own key: only played rises by one. -/
theorem incrementPlayed_rowOf (db : StatsDB) (uid : String)
    (gt : GameType) :
    rowOf (StatsRepository.incrementPlayed db uid gt) uid gt
      = { wins := (rowOf db uid gt).wins,
          losses := (rowOf db uid gt).losses,
          draws := (rowOf db uid gt).draws,
          played := (rowOf db uid gt).played + 1 } := by
  cases hdb : db uid gt <;>
    simp [rowOf, StatsRepository.incrementPlayed, StatsRepository.upsert,
      hdb]

/-- `incrementWin` never changes the draws counter of any row. -/
theorem incrementWin_draws (db : StatsDB) (uid : String) (gt : GameType)
    (u : String) (g : GameType) :
    (rowOf (StatsRepository.incrementWin db uid gt) u g).draws
      = (rowOf db u g).draws := by
  by_cases h : u = uid ∧ g = gt
  · obtain ⟨rfl, rfl⟩ := h
    rw [incrementWin_rowOf]
  · unfold rowOf StatsRepository.incrementWin
    rw [upsert_other db uid gt _ _ u g h]

/-- `incrementLoss` never changes the draws counter of any row. -/
theorem incrementLoss_draws (db : StatsDB) (uid : String) (gt : GameType)
    (u : String) (g : GameType) :
    (rowOf (StatsRepository.incrementLoss db uid gt) u g).draws
      = (rowOf db u g).draws := by
  by_cases h : u = uid ∧ g = gt
  · obtain ⟨rfl, rfl⟩ := h
    rw [incrementLoss_rowOf]
  · unfold rowOf StatsRepository.incrementLoss
    rw [upsert_other db uid gt _ _ u g h]

/-- `incrementPlayed` never changes wins, losses or draws of any row. -/
theorem incrementPlayed_proj (db : StatsDB) (uid : String) (gt : GameType)
    (u : String) (g : GameType) :
    (rowOf (StatsRepository.incrementPlayed db uid gt) u g).wins
        = (rowOf db u g).wins
      ∧ (rowOf (StatsRepository.incrementPlayed db uid gt) u g).losses
        = (rowOf db u g).losses
      ∧ (rowOf (StatsRepository.incrementPlayed db uid gt) u g).draws
        = (rowOf db u g).draws := by
  by_cases h : u = uid ∧ g = gt
  · obtain ⟨rfl, rfl⟩ := h
    rw [incrementPlayed_rowOf]
    exact ⟨rfl, rfl, rfl⟩
  · unfold rowOf StatsRepository.incrementPlayed
    rw [upsert_other db uid gt _ _ u g h]
    exact ⟨rfl, rfl, rfl⟩

/-- A fold of per-player steps that each leave a key untouched leaves that
key untouched. -/
theorem foldl_preserve_of (step : StatsDB → PlayerRef → StatsDB)
    (u : String) (g : GameType) :
    ∀ (roster : List PlayerRef) (db : StatsDB),
      (∀ p ∈ roster, ∀ db2, (step db2 p) u g = db2 u g) →
      (roster.foldl step db) u g = db u g := by
  intro roster
  induction roster with
  | nil => intro db h; rfl
  | cons q rest ih =>
    intro db h
    rw [List.foldl_cons,
      ih (step db q) (fun r hr => h r (List.mem_cons_of_mem _ hr)),
      h q (List.mem_cons_self _ _)]

/-- In a fold of per-player steps over a duplicate-free roster, a member's
own row is transformed exactly once by its own step, provided every other
member's step leaves that row untouched. -/
theorem foldl_member (step : StatsDB → PlayerRef → StatsDB) (g : GameType)
    (bump : GameStats → GameStats) (p : PlayerRef) :
    ∀ (roster : List PlayerRef) (db : StatsDB),
      p ∈ roster →
      roster.Pairwise (fun a b => a.userId ≠ b.userId) →
      (∀ db2, rowOf (step db2 p) p.userId g
        = bump (rowOf db2 p.userId g)) →
      (∀ r ∈ roster, r.userId ≠ p.userId →
        ∀ db2, (step db2 r) p.userId g = db2 p.userId g) →
      rowOf (roster.foldl step db) p.userId g
        = bump (rowOf db p.userId g) := by
  intro roster
  induction roster with
  | nil => intro db hp; simp at hp
  | cons q rest ih =>
    intro db hp hdist hself hother
    obtain ⟨hqrest, hdrest⟩ := List.pairwise_cons.mp hdist
    rw [List.foldl_cons]
    rcases List.mem_cons.mp hp with rfl | hp2
    · have hpres : (rest.foldl step (step db p)) p.userId g
          = (step db p) p.userId g := by
        refine foldl_preserve_of step p.userId g rest (step db p) ?_
        intro r hr db2
        exact hother r (List.mem_cons_of_mem _ hr) (hqrest r hr).symm db2
      unfold rowOf
      rw [hpres]
      exact hself db
    · have hqp : q.userId ≠ p.userId := hqrest p hp2
      have hstepq : (step db q) p.userId g = db p.userId g :=
        hother q (List.mem_cons_self _ _) hqp db
      have := ih (step db q) hp2 hdrest hself
        (fun r hr hru db2 => hother r (List.mem_cons_of_mem _ hr) hru db2)
      rw [this]
      unfold rowOf
      rw [hstepq]

/-- A fold of per-player steps each preserving a counter projection on all
rows preserves it on all rows. -/
theorem foldl_rowOf_preserve (step : StatsDB → PlayerRef → StatsDB)
    (proj : GameStats → Nat)
    (hstep : ∀ db2 q u g, proj (rowOf (step db2 q) u g)
      = proj (rowOf db2 u g)) :
    ∀ (roster : List PlayerRef) (db : StatsDB) (u : String) (g : GameType),
      proj (rowOf (roster.foldl step db) u g) = proj (rowOf db u g) := by
  intro roster
  induction roster with
  | nil => intro db u g; rfl
  | cons q rest ih =>
    intro db u g
    rw [List.foldl_cons, ih (step db q) u g, hstep db q u g]

/-- C4: stats attribution on completion.  With a winner id (a real user id:
non-null and non-empty) and a duplicate-free roster, the winner's row gets
wins and played incremented by exactly one, every other roster member's row
gets losses and played incremented by exactly one, and no row's draws
counter changes; with a null winner, every roster member's row gets draws
and played incremented by exactly one. -/
theorem c4_stats_attribution :
    (∀ (roster : List PlayerRef) (db : StatsDB) (gt : GameType)
      (w : String) (db2 : StatsDB),
      w ≠ "" →
      roster.Pairwise (fun a b => a.userId ≠ b.userId) →
      db2 = StatsRepository.updateStatsForGameCompletion roster (some w) gt
        db →
      (rowOf db2 w gt).wins = (rowOf db w gt).wins + 1 ∧
      (rowOf db2 w gt).played = (rowOf db w gt).played + 1 ∧
      (∀ p ∈ roster, p.userId ≠ w →
        (rowOf db2 p.userId gt).losses
          = (rowOf db p.userId gt).losses + 1 ∧
        (rowOf db2 p.userId gt).played
          = (rowOf db p.userId gt).played + 1) ∧
      (∀ u g, (rowOf db2 u g).draws = (rowOf db u g).draws))
    ∧ (∀ (roster : List PlayerRef) (db : StatsDB) (gt : GameType)
        (db2 : StatsDB),
      roster.Pairwise (fun a b => a.userId ≠ b.userId) →
      db2 = StatsRepository.updateStatsForGameCompletion roster none gt
        db →
      ∀ p ∈ roster,
        (rowOf db2 p.userId gt).draws = (rowOf db p.userId gt).draws + 1 ∧
        (rowOf db2 p.userId gt).played
          = (rowOf db p.userId gt).played + 1) := by
  constructor
  · intro roster db gt w db2 hw hdist hdb2
    subst hdb2
    simp only [StatsRepository.updateStatsForGameCompletion]
    rw [if_pos hw]
    set step := fun (acc : StatsDB) (player : PlayerRef) =>
      if player.userId ≠ w then
        StatsRepository.incrementLoss acc player.userId gt
      else acc with hstepdef
    have hstepw : ∀ p ∈ roster, ∀ db3, (step db3 p) w gt = db3 w gt := by
      intro p hp db3
      by_cases hpw : p.userId ≠ w
      · simp only [hstepdef, if_pos hpw]
        unfold StatsRepository.incrementLoss
        exact upsert_other db3 p.userId gt _ _ w gt
          (fun hcon => hpw hcon.1.symm)
      · simp only [hstepdef, if_neg hpw]
    have hwrow : rowOf
        (roster.foldl step (StatsRepository.incrementWin db w gt)) w gt
        = rowOf (StatsRepository.incrementWin db w gt) w gt := by
      unfold rowOf
      rw [foldl_preserve_of step w gt roster _ hstepw]
    refine ⟨?_, ?_, ?_, ?_⟩
    · rw [hwrow, incrementWin_rowOf]
    · rw [hwrow, incrementWin_rowOf]
    · intro p hp hpw
      have hself : ∀ db3, rowOf (step db3 p) p.userId gt
          = bumpLoss (rowOf db3 p.userId gt) := by
        intro db3
        simp only [hstepdef, if_pos hpw]
        rw [incrementLoss_rowOf]
        rfl
      have hother : ∀ r ∈ roster, r.userId ≠ p.userId →
          ∀ db3, (step db3 r) p.userId gt = db3 p.userId gt := by
        intro r hr hru db3
        by_cases hrw : r.userId ≠ w
        · simp only [hstepdef, if_pos hrw]
          unfold StatsRepository.incrementLoss
          exact upsert_other db3 r.userId gt _ _ p.userId gt
            (fun hcon => hru hcon.1.symm)
        · simp only [hstepdef, if_neg hrw]
      have hmain := foldl_member step gt bumpLoss p roster
        (StatsRepository.incrementWin db w gt) hp hdist hself hother
      have hinit : rowOf (StatsRepository.incrementWin db w gt) p.userId gt
          = rowOf db p.userId gt := by
        unfold rowOf StatsRepository.incrementWin
        rw [upsert_other db w gt _ _ p.userId gt
          (fun hcon => hpw hcon.1)]
      rw [hmain, hinit]
      exact ⟨rfl, rfl⟩
    · intro u g
      have hdrawstep : ∀ db3 q u2 g2,
          (rowOf (step db3 q) u2 g2).draws = (rowOf db3 u2 g2).draws := by
        intro db3 q u2 g2
        by_cases hqw : q.userId ≠ w
        · simp only [hstepdef, if_pos hqw]
          exact incrementLoss_draws db3 q.userId gt u2 g2
        · simp only [hstepdef, if_neg hqw]
      rw [foldl_rowOf_preserve step (fun r => r.draws) hdrawstep roster _
        u g]
      exact incrementWin_draws db w gt u g
  · intro roster db gt db2 hdist hdb2
    subst hdb2
    intro p hp
    simp only [StatsRepository.updateStatsForGameCompletion]
    set step := fun (acc : StatsDB) (player : PlayerRef) =>
      StatsRepository.incrementDraw acc player.userId gt with hstepdef
    have hself : ∀ db3, rowOf (step db3 p) p.userId gt
        = bumpDraw (rowOf db3 p.userId gt) := by
      intro db3
      simp only [hstepdef]
      rw [incrementDraw_rowOf]
      rfl
    have hother : ∀ r ∈ roster, r.userId ≠ p.userId →
        ∀ db3, (step db3 r) p.userId gt = db3 p.userId gt := by
      intro r hr hru db3
      simp only [hstepdef]
      unfold StatsRepository.incrementDraw
      exact upsert_other db3 r.userId gt _ _ p.userId gt
        (fun hcon => hru hcon.1.symm)
    have hmain := foldl_member step gt bumpDraw p roster db hp hdist hself
      hother
    rw [hmain]
    exact ⟨rfl, rfl⟩

/-- Witness for C4 at a concrete input: completing a 2-member roster with
winner u1 from an empty store increments u1's wins by one. -/
theorem c4_stats_attribution_witness :
    (rowOf (StatsRepository.updateStatsForGameCompletion c4Roster
        (some "u1") .ticTacToe emptyStatsDB) "u1" .ticTacToe).wins
      = (rowOf emptyStatsDB "u1" .ticTacToe).wins + 1 :=
  (c4_stats_attribution.1 c4Roster emptyStatsDB .ticTacToe "u1"
    (StatsRepository.updateStatsForGameCompletion c4Roster (some "u1")
      .ticTacToe emptyStatsDB)
    (by decide) (by decide) rfl).1

/-- C5: stats attribution on abandonment.  Every roster member of a
duplicate-free roster gets only played incremented by exactly one; wins,
losses and draws are untouched on every row of the store. -/
theorem c5_stats_abandonment :
    ∀ (roster : List PlayerRef) (db : StatsDB) (gt : GameType)
      (db2 : StatsDB),
      roster.Pairwise (fun a b => a.userId ≠ b.userId) →
      db2 = StatsRepository.updateStatsForGameAbandonment roster gt db →
      (∀ p ∈ roster,
        (rowOf db2 p.userId gt).played
          = (rowOf db p.userId gt).played + 1)
      ∧ (∀ u g,
        (rowOf db2 u g).wins = (rowOf db u g).wins ∧
        (rowOf db2 u g).losses = (rowOf db u g).losses ∧
        (rowOf db2 u g).draws = (rowOf db u g).draws) := by
  intro roster db gt db2 hdist hdb2
  subst hdb2
  unfold StatsRepository.updateStatsForGameAbandonment
  set step := fun (acc : StatsDB) (player : PlayerRef) =>
    StatsRepository.incrementPlayed acc player.userId gt with hstepdef
  constructor
  · intro p hp
    have hself : ∀ db3, rowOf (step db3 p) p.userId gt
        = bumpPlayed (rowOf db3 p.userId gt) := by
      intro db3
      simp only [hstepdef]
      rw [incrementPlayed_rowOf]
      rfl
    have hother : ∀ r ∈ roster, r.userId ≠ p.userId →
        ∀ db3, (step db3 r) p.userId gt = db3 p.userId gt := by
      intro r hr hru db3
      simp only [hstepdef]
      unfold StatsRepository.incrementPlayed
      exact upsert_other db3 r.userId gt _ _ p.userId gt
        (fun hcon => hru hcon.1.symm)
    have hmain := foldl_member step gt bumpPlayed p roster db hp hdist
      hself hother
    rw [hmain]
    rfl
  · intro u g
    refine ⟨?_, ?_, ?_⟩
    · exact foldl_rowOf_preserve step (fun r => r.wins)
        (fun db3 q u2 g2 =>
          (incrementPlayed_proj db3 q.userId gt u2 g2).1) roster db u g
    · exact foldl_rowOf_preserve step (fun r => r.losses)
        (fun db3 q u2 g2 =>
          (incrementPlayed_proj db3 q.userId gt u2 g2).2.1) roster db u g
    · exact foldl_rowOf_preserve step (fun r => r.draws)
        (fun db3 q u2 g2 =>
          (incrementPlayed_proj db3 q.userId gt u2 g2).2.2) roster db u g

/-- Witness for C5 at a concrete input: abandoning with a 2-member roster
increments u2's played by one. -/
theorem c5_stats_abandonment_witness :
    (rowOf (StatsRepository.updateStatsForGameAbandonment c4Roster
        .ticTacToe emptyStatsDB) "u2" .ticTacToe).played
      = (rowOf emptyStatsDB "u2" .ticTacToe).played + 1 :=
  ((c5_stats_abandonment c4Roster emptyStatsDB .ticTacToe
    (StatsRepository.updateStatsForGameAbandonment c4Roster .ticTacToe
      emptyStatsDB)
    (by decide) rfl).1 { userId := "u2" } (by decide))

/-- C9: the claim is false as stated.  A zero-roster completion with a
non-null winner id is not a no-op: `updateStatsForGameCompletion` still
upserts the winner's row (the winner increment happens before and outside
the roster loop), as shown on an empty store. -/
theorem c9_counterexample :
    StatsRepository.updateStatsForGameCompletion [] (some "u1") .ticTacToe
        emptyStatsDB "u1" .ticTacToe
      ≠ emptyStatsDB "u1" .ticTacToe := by
  decide

/-- C9 (amended): a zero-roster completion is a no-op when the winner id is
JS-falsy (null, or the empty string); with a truthy winner id it performs
exactly the winner's win upsert (wins and played) and touches nothing
else. -/
theorem c9_zero_roster :
    ∀ (db : StatsDB) (gt : GameType),
      StatsRepository.updateStatsForGameCompletion [] none gt db = db ∧
      StatsRepository.updateStatsForGameCompletion [] (some "") gt db
        = db ∧
      ∀ w, w ≠ "" →
        StatsRepository.updateStatsForGameCompletion [] (some w) gt db
          = StatsRepository.incrementWin db w gt := by
  intro db gt
  refine ⟨rfl, rfl, ?_⟩
  intro w hw
  simp only [StatsRepository.updateStatsForGameCompletion]
  rw [if_pos hw]
  rfl

/-- Witness for C9 at a concrete input: the draw case is a no-op on the
empty store, and the winner case equals the plain win upsert. -/
theorem c9_zero_roster_witness :
    StatsRepository.updateStatsForGameCompletion [] none .ticTacToe
        emptyStatsDB = emptyStatsDB
    ∧ StatsRepository.updateStatsForGameCompletion [] (some "u1")
        .ticTacToe emptyStatsDB
      = StatsRepository.incrementWin emptyStatsDB "u1" .ticTacToe :=
  ⟨(c9_zero_roster emptyStatsDB .ticTacToe).1,
   (c9_zero_roster emptyStatsDB .ticTacToe).2.2 "u1" (by decide)⟩

/-- The `canStart` readiness check commutes with the projection of lobby
players to (userId, isReady) pairs. -/
theorem canstart_map (players : List LobbyPlayer) (ownerId : String) :
    ((players.map (fun p =>
        ({ userId := p.userId, isReady := p.isReady } : CanStartPlayer))).filter
      (fun p => p.userId != ownerId)).all (fun p => p.isReady)
    = (players.filter (fun p => p.userId != ownerId)).all
      (fun p => p.isReady) := by
  induction players with
  | nil => rfl
  | cons q rest ih =>
    simp only [List.map_cons, List.filter_cons]
    cases hq : (q.userId != ownerId) <;> simp [hq, ih]

/-- `createGamePlayers` (either engine) accepts exactly 2-entry rosters and
returns a 2-entry result. -/
theorem createGamePlayers_inv (gt : GameType)
    (lps : List LobbyPlayerInfo) (gps : List GamePlayer)
    (h : GameLogicService.createGamePlayers gt lps = .ok gps) :
    lps.length = 2 ∧ gps.length = 2 := by
  cases gt <;>
  · simp only [GameLogicService.createGamePlayers,
      TicTacToeLogic.createGamePlayers,
      Connect4Logic.createGamePlayers] at h
    split at h
    · exact absurd h (by simp)
    · rename_i hlen
      simp only [Except.ok.injEq] at h
      subst h
      have hl2 : lps.length = 2 := by simpa using hlen
      refine ⟨hl2, ?_⟩
      simp [List.enum_length, hl2]

/-- `createGamePlayers` succeeds on a 2-entry roster. -/
theorem createGamePlayers_of_len (gt : GameType)
    (lps : List LobbyPlayerInfo) (h : lps.length = 2) :
    ∃ gps, GameLogicService.createGamePlayers gt lps = .ok gps
      ∧ gps.length = 2 := by
  cases gt <;>
  · simp only [GameLogicService.createGamePlayers,
      TicTacToeLogic.createGamePlayers, Connect4Logic.createGamePlayers]
    rw [if_neg (by simp [h])]
    refine ⟨_, rfl, ?_⟩
    simp [List.enum_length, h]

/-- `createInitialState` succeeds on a 2-entry roster. -/
theorem createInitialState_of_len (gt : GameType)
    (gps : List GamePlayer) (h : gps.length = 2) :
    ∃ st0, GameLogicService.createInitialState gt gps = .ok st0 := by
  cases gt <;>
  · simp only [GameLogicService.createInitialState,
      TicTacToeLogic.createInitialState, Connect4Logic.createInitialState]
    rw [if_neg (by simp [h])]
    exact ⟨_, rfl⟩

/-- `createGame` succeeds on a non-empty roster, starting InProgress with
that roster. -/
theorem createGame_of_ne (lobbyId : String) (gt : GameType)
    (gps : List GamePlayer) (st : GameState) (h : gps ≠ []) :
    ∃ g, GameFirestoreService.createGame lobbyId gt gps st = .ok g
      ∧ g.status = .inProgress ∧ g.players = gps := by
  cases gps with
  | nil => exact absurd rfl h
  | cons p0 rest => exact ⟨_, rfl, rfl, rfl⟩

/-- C6: the claim is false as stated.  On a 3-player Waiting Tic-Tac-Toe
lobby with every player ready — roster size 3 meets the minimum of 2 and
all non-owner players are ready — start does not succeed: it fails with the
engine's exactly-2-players error raised by `createGamePlayers`. -/
theorem c6_counterexample :
    GameController.startGame c6Lobby3 "alice" = .error .invalidPlayerCount
    ∧ c6Lobby3.status = .waiting
    ∧ c6Lobby3.ownerId = "alice"
    ∧ (getGameLobbyConfig c6Lobby3.gameType).minPlayers
        ≤ c6Lobby3.players.length
    ∧ (c6Lobby3.players.filter
        (fun p => p.userId != c6Lobby3.ownerId)).all (fun p => p.isReady)
      = true := by
  refine ⟨rfl, rfl, rfl, by decide, by decide⟩

/-- Both shipped configurations are the same record: min/max 2, auto-ready
owner who cannot toggle, ready system, custom `canStart`. -/
theorem getGameLobbyConfig_eq (gt : GameType) :
    getGameLobbyConfig gt
      = { minPlayers := 2, maxPlayers := 2, ownerMustBeReady := false,
          ownerCanToggleReady := false, usesReadySystem := true,
          canStart := some shippedCanStart } := by
  cases gt <;> rfl

/-- From the negation of a negated Boolean being true, the Boolean is
true. -/
theorem bool_of_not_not (b : Bool) (h : ¬((!b) = true)) : b = true := by
  cases b
  · exact absurd rfl h
  · rfl

/-- C6 (amended): for a Waiting lobby of either shipped game type,
owner-triggered start succeeds iff the roster size equals the game's exact
required player count (2 — which also meets the minimum) and every
non-owner player is ready (the auto-ready owner is exempt); the original
claim's "at least the minimum" fails for larger lobbies, which pass the
readiness gate but are rejected by `createGamePlayers`.  A successful start
produces a session with status InProgress and roster length 2.  Scenario:
on the 2-player lobby with the sole non-owner not ready, start fails with
the insufficient-ready-players error; after that player toggles ready,
start succeeds with an InProgress session of roster length 2. -/
theorem c6_start_preconditions :
    (∀ lobby : Lobby, lobby.status = .waiting →
      ((∃ g, GameController.startGame lobby lobby.ownerId = .ok g) ↔
        (lobby.players.length = 2 ∧
          (lobby.players.filter (fun p => p.userId != lobby.ownerId)).all
            (fun p => p.isReady) = true)))
    ∧ (∀ (lobby : Lobby) (uid : String) (g : Game),
      GameController.startGame lobby uid = .ok g →
      g.status = .inProgress ∧ g.players.length = 2)
    ∧ GameController.startGame c6Lobby "alice" = .error .cannotStart
    ∧ (∃ lobby2, LobbyFirestoreService.togglePlayerReady c6Lobby "bob"
        = .ok lobby2
      ∧ ∃ g, GameController.startGame lobby2 "alice" = .ok g
        ∧ g.status = .inProgress ∧ g.players.length = 2) := by
  refine ⟨?_, ?_, rfl, ?_⟩
  · intro lobby hwait
    constructor
    · rintro ⟨g, hg⟩
      simp only [GameController.startGame, getGameLobbyConfig_eq] at hg
      rw [if_neg (by simp)] at hg
      rw [if_neg (by simp [hwait])] at hg
      split at hg
      · exact absurd hg (by simp)
      · rename_i hlen
        split at hg
        · exact absurd hg (by simp)
        · rename_i hcs
          split at hg
          · exact absurd hg (by simp)
          · rename_i gps hgps
            obtain ⟨hmap2, -⟩ :=
              createGamePlayers_inv lobby.gameType _ gps hgps
            have hlen2 : lobby.players.length = 2 := by simpa using hmap2
            refine ⟨hlen2, ?_⟩
            have hcst := bool_of_not_not _ hcs
            simp only [shippedCanStart] at hcst
            split at hcst
            · exact absurd hcst (by simp)
            · rw [canstart_map] at hcst
              exact hcst
    · rintro ⟨hlen2, hready⟩
      obtain ⟨gps, hgps, hgpslen⟩ := createGamePlayers_of_len
        lobby.gameType
        (lobby.players.map (fun p =>
          { userId := p.userId, username := p.username,
            displayName := p.displayName, photoURL := p.photoURL }))
        (by simp [hlen2])
      obtain ⟨st0, hst0⟩ := createInitialState_of_len lobby.gameType gps
        hgpslen
      obtain ⟨g, hgame, -, -⟩ := createGame_of_ne lobby.id lobby.gameType
        gps st0
        (by intro hnil; rw [hnil] at hgpslen; simp at hgpslen)
      refine ⟨g, ?_⟩
      simp only [GameController.startGame, getGameLobbyConfig_eq]
      rw [if_neg (by simp)]
      rw [if_neg (by simp [hwait])]
      rw [if_neg (show ¬(lobby.players.length < 2) by omega)]
      have hcs : shippedCanStart
          { players := lobby.players.map (fun p =>
              { userId := p.userId, isReady := p.isReady }),
            ownerId := lobby.ownerId } = true := by
        simp only [shippedCanStart]
        rw [if_neg (by simp [hlen2])]
        rw [canstart_map]
        exact hready
      rw [hcs]
      simp only [Bool.not_true]
      rw [if_neg (by simp)]
      simp only [hgps, hst0]
      exact hgame
  · intro lobby uid g h
    simp only [GameController.startGame, getGameLobbyConfig_eq] at h
    split at h
    · exact absurd h (by simp)
    · split at h
      · exact absurd h (by simp)
      · split at h
        · exact absurd h (by simp)
        · split at h
          · exact absurd h (by simp)
          · split at h
            · exact absurd h (by simp)
            · rename_i gps hgps
              split at h
              · exact absurd h (by simp)
              · rename_i st0 hst0
                obtain ⟨-, hgps2⟩ :=
                  createGamePlayers_inv lobby.gameType _ gps hgps
                unfold GameFirestoreService.createGame at h
                split at h
                · exact absurd h (by simp)
                · simp only [Except.ok.injEq] at h
                  subst h
                  exact ⟨rfl, hgps2⟩
  · refine ⟨_, rfl, _, rfl, rfl, rfl⟩

/-- Witness for C6 at a concrete input: the owner's start succeeds on the
2-player lobby whose sole non-owner is ready. -/
theorem c6_start_preconditions_witness :
    ∃ g, GameController.startGame c6LobbyReady c6LobbyReady.ownerId
      = .ok g :=
  (c6_start_preconditions.1 c6LobbyReady rfl).mpr (by decide)
